import Mathlib

/-!
Verification of the SAMud connection/session orchestration engine.

This file gives a shallow embedding, in Lean 4, of the core of the SAMud
server (a line-oriented multi-user text server written in TypeScript):

* the direction shortcut/opposite tables of `src/models/room.ts`;
* the line framing of `Session.processBuffer` in `src/server/session.ts`;
* the command dispatcher of `src/commands/commandDispatcher.ts`;
* the session registry (`src/server/sessionManager.ts`), the multi-step
  authentication flow (`src/commands/authCommands.ts`), and the movement
  and look handlers (`src/commands/worldCommands.ts`), combined into a
  labelled transition system over the global mutable state of the server.

JavaScript `Map` objects keyed by session id are modelled as association
lists with `Map.set` / `Map.get` / `Map.has` / `Map.delete` semantics;
strings are Lean `String`s (for the framing proofs, `List Char`);
timestamps (`Date.now()`) are `Nat` milliseconds supplied as parameters;
the external persistence collaborator (SQLite) is modelled by oracle
values passed to each step, together with an explicit log of the calls a
handler makes to it.
-/

/-! ## Association-list model of JavaScript `Map` keyed by strings -/

/-- `Map.get(k)`: first value bound to `k`, if any. -/
def mget {α : Type} (m : List (String × α)) (k : String) : Option α :=
  match m with
  | [] => none
  | (k1, v) :: rest => if k1 = k then some v else mget rest k

/-- `Map.set(k, v)`: replace the binding of `k` in place, else append. -/
def mset {α : Type} (m : List (String × α)) (k : String) (v : α) :
    List (String × α) :=
  match m with
  | [] => [(k, v)]
  | (k1, v1) :: rest => if k1 = k then (k, v) :: rest else (k1, v1) :: mset rest k v

/-- `Map.delete(k)`: remove every binding of `k` (keys are unique in use). -/
def mdel {α : Type} (m : List (String × α)) (k : String) : List (String × α) :=
  match m with
  | [] => []
  | (k1, v1) :: rest => if k1 = k then mdel rest k else (k1, v1) :: mdel rest k

/-- ASCII lower-casing of one character, as JavaScript `toLowerCase()` acts on
the ASCII tokens used by this code base. -/
def lowerChar (c : Char) : Char :=
  if 'A' ≤ c ∧ c ≤ 'Z' then Char.ofNat (c.toNat + 32) else c

/-- `String.prototype.toLowerCase()` (ASCII fragment). -/
def toLowerStr (s : String) : String := String.mk (s.data.map lowerChar)

/-! ## World Navigator tables (`src/models/room.ts`) -/

/-- `Room.getDirectionShortcuts()`: the fixed shortcut table, verbatim. -/
def directionShortcuts : List (String × String) :=
  [("n", "north"), ("north", "north"),
   ("s", "south"), ("south", "south"),
   ("e", "east"), ("east", "east"),
   ("w", "west"), ("west", "west"),
   ("ne", "northeast"), ("northeast", "northeast"),
   ("nw", "northwest"), ("northwest", "northwest"),
   ("se", "southeast"), ("southeast", "southeast"),
   ("sw", "southwest"), ("southwest", "southwest"),
   ("u", "up"), ("up", "up"),
   ("d", "down"), ("down", "down")]

/-- The opposites table of `Room.getDirectionOpposite`, verbatim. -/
def directionOpposites : List (String × String) :=
  [("north", "south"), ("south", "north"),
   ("east", "west"), ("west", "east"),
   ("northeast", "southwest"), ("northwest", "southeast"),
   ("southeast", "northwest"), ("southwest", "northeast"),
   ("up", "down"), ("down", "up")]

/-- `Room.getDirectionOpposite(direction)`:
`opposites[direction.toLowerCase()] || direction`. -/
def getDirectionOpposite (direction : String) : String :=
  (mget directionOpposites (toLowerStr direction)).getD direction

/-- The direction normalization performed inline by the `move` handler
(`worldCommands.ts` line 130):
`shortcuts[direction.toLowerCase()] || direction.toLowerCase()`.
The spec calls this operation `normalizeDirection`. -/
def normalizeDirection (tok : String) : String :=
  (mget directionShortcuts (toLowerStr tok)).getD (toLowerStr tok)

/-! ## Line framing (`Session.processBuffer`, `src/server/session.ts` 88-107)

The socket `data` handler appends each received chunk to `this.buffer` and
then runs `processBuffer`, which repeatedly searches the buffer for the
regex `/\r?\n/`, cuts off the text before the first match, trims it, emits
it as a `line` event when non-empty, and drops `matchIndex + 1` characters
(so a CRLF is consumed in two rounds, the leftover bare `\n` producing a
discarded empty line).  Buffers are modelled as `List Char`; the `data`
chunks are modelled as character sequences. -/

/-- Character class of JavaScript `String.prototype.trim` (ASCII fragment). -/
def isJsSpace (c : Char) : Bool :=
  c = ' ' || c = '\t' || c = '\n' || c = '\r' || c = '\x0b' || c = '\x0c'

/-- `line.trim()`: strip leading and trailing whitespace. -/
def trimChars (l : List Char) : List Char :=
  ((l.dropWhile isJsSpace).reverse.dropWhile isJsSpace).reverse

/-- `buffer.search(/\r?\n/)`: index of the first position starting a `\n`
or a `\r` immediately followed by `\n`; `none` when there is no match. -/
def findTermIdx : List Char → Option Nat
  | [] => none
  | c :: rest =>
    if c = '\n' then some 0
    else if c = '\r' ∧ rest.head? = some '\n' then some 0
    else (findTermIdx rest).map (· + 1)

/-- `Session.processBuffer`: returns the final buffer content and the list
of emitted `line` events, in order.  Mirrors the `while` loop: cut at the
first `/\r?\n/` match, trim, emit when non-empty, continue on
`buffer.substring(matchIndex + 1)`. -/
def processBuffer (buf : List Char) : List Char × List (List Char) :=
  match h : findTermIdx buf with
  | none => (buf, [])
  | some i =>
    let line := trimChars (buf.take i)
    let r := processBuffer (buf.drop (i + 1))
    (r.1, if line = [] then r.2 else line :: r.2)
termination_by buf.length
decreasing_by
  cases buf with
  | nil => simp [findTermIdx] at h
  | cons c rest => simp only [List.length_drop, List.length_cons]; omega

/-- The socket `data` handler (`session.ts` 47-58) applied to a sequence of
chunks: `this.buffer += data.toString(); this.processBuffer();` for each
chunk, collecting all emitted lines in order. -/
def feedChunks : List Char → List (List Char) → List Char × List (List Char)
  | buf, [] => (buf, [])
  | buf, c :: cs =>
    let r1 := processBuffer (buf ++ c)
    let r2 := feedChunks r1.1 cs
    (r2.1, r1.2 ++ r2.2)

/-- Modelled from the spec: the specified segmentation of a byte sequence —
one segment per terminator, where a terminator is a line feed optionally
preceded by a carriage return; returns the raw terminated segments and the
unterminated trailing fragment. -/
def splitSegments (s : List Char) : List (List Char) × List Char :=
  match s with
  | [] => ([], [])
  | c :: rest =>
    if c = '\n' then
      let r := splitSegments rest
      ([] :: r.1, r.2)
    else if c = '\r' ∧ rest.head? = some '\n' then
      let r := splitSegments rest.tail
      ([] :: r.1, r.2)
    else
      match splitSegments rest with
      | (seg :: segs, rem) => ((c :: seg) :: segs, rem)
      | ([], rem) => ([], c :: rem)
termination_by s.length
decreasing_by
  all_goals simp only [List.length_tail, List.length_cons]
  all_goals omega

/-- Modelled from the spec: the `line` events the framing is specified to
emit — each terminated segment's whitespace-trimmed text, with segments
that are empty after trimming discarded. -/
def specEmittedLines (s : List Char) : List (List Char) :=
  ((splitSegments s).1.map trimChars).filter (fun l => l ≠ [])

/-- Proof-device: the suffix following the terminator matched at index
`i` (two characters for CRLF, one for bare LF). -/
def afterTerm (s : List Char) (i : Nat) : List Char :=
  if (s.drop i).head? = some '\r' then s.drop (i + 2) else s.drop (i + 1)

/-! ## Session data (`src/server/session.ts`)

`Session` state machine fields.  The connection handle, timers and logger
calls carry no observable protocol state and are not part of the model;
the timers appear as guards on the transition system below. -/

/-- `SessionState` enum. -/
inductive SessionState where
  | connected
  | authenticating
  | authenticated
  | disconnected
deriving DecidableEq, Repr

/-- One `Session` object: id, lifecycle state and the identity fields
populated on authentication (`userId`, `username`, `roomId`). -/
structure Sess where
  id : String
  state : SessionState
  userId : Option Nat
  username : Option String
  roomId : Option Nat
deriving DecidableEq, Repr

/-- A write to a session's socket: `(session id, text passed to writeLine)`. -/
abbrev Write := String × String

/-! ## Command Dispatcher (`src/commands/commandDispatcher.ts`)

`dispatch(session, input)` normalizes whitespace, parses the first token
as the (lower-cased) command name, resolves aliases, and invokes the
handler inside `try/catch`.  The registry is modelled as the list of
registered (lower-cased) command names plus the alias table; the behaviour
of the individual handlers is a parameter `run`, whose `thrown` outcome
models a handler that throws or rejects (carrying the session as the
handler left it and the writes it made before failing). -/

/-- Run-collapsing pass of `input.replace(/\s+/g, ' ')`; the `Bool` flag
records being inside a whitespace run. -/
def collapseWsAux : Bool → List Char → List Char
  | _, [] => []
  | inRun, c :: rest =>
    if isJsSpace c then
      if inRun then collapseWsAux true rest
      else ' ' :: collapseWsAux true rest
    else c :: collapseWsAux false rest

/-- `input.replace(/\s+/g, ' ')`. -/
def collapseWs (l : List Char) : List Char := collapseWsAux false l

/-- `input.replace(/\s+/g, ' ').trim()`. -/
def normalizeInput (input : String) : String :=
  String.mk (trimChars (collapseWs input.data))

/-- `String.prototype.split(' ')`: split at every single space. -/
def splitOnSpace : List Char → List (List Char)
  | [] => [[]]
  | c :: rest =>
    if c = ' ' then [] :: splitOnSpace rest
    else
      match splitOnSpace rest with
      | t :: ts => (c :: t) :: ts
      | [] => [[c]]

/-- `normalizedInput.split(' ')` as strings. -/
def parseParts (input : String) : List String :=
  (splitOnSpace (normalizeInput input).data).map String.mk

/-- Alias resolution step of `dispatch`: `this.aliases.get(commandName)`
when present, else the name itself. -/
def resolveCommandName (aliases : List (String × String)) (name : String) : String :=
  match mget aliases name with
  | some resolved => resolved
  | none => name

/-- Outcome of invoking one registered handler. -/
inductive HandlerOutcome where
  | ok (sess : Sess) (writes : List Write)
  | thrown (sess : Sess) (writes : List Write)
deriving DecidableEq

/-- `CommandDispatcher.dispatch(session, input)`. -/
def dispatch (commands : List String) (aliases : List (String × String))
    (run : String → List String → Sess → HandlerOutcome)
    (sess : Sess) (input : String) : Sess × List Write :=
  let normalizedInput := normalizeInput input
  if normalizedInput = "" then (sess, [])
  else
    match parseParts input with
    | [] => (sess, [])
    | p0 :: args =>
      if p0 = "" then (sess, [])
      else
        let commandName := resolveCommandName aliases (toLowerStr p0)
        if commands.contains commandName then
          match run commandName args sess with
          | .ok sess2 ws => (sess2, ws)
          | .thrown sess2 ws =>
            (sess2, ws ++ [(sess.id, "An error occurred while executing the command.")])
        else
          (sess, [(sess.id,
            "Unknown command: '" ++ commandName ++
              "'. Type 'help' for a list of available commands.")])

/-- The command names registered by `MudServer.setupCommands` (basic, auth,
world, chat and NPC command sets), lower-cased as `registerCommand` stores
them. -/
def serverCommandNames : List String :=
  ["help", "quit", "signup", "login", "__auth_flow__", "look", "where", "move",
   "n", "s", "e", "w", "ne", "nw", "se", "sw", "u", "d",
   "say", "shout", "who", "emote", "talk", "npcs", "ollama-test"]

/-- The alias table registered by the same command sets. -/
def serverAliases : List (String × String) :=
  [("n", "move"), ("north", "move"), ("s", "move"), ("south", "move"),
   ("e", "move"), ("east", "move"), ("w", "move"), ("west", "move"),
   ("me", "emote"), ("speak", "talk")]

/-! ## Session Manager (`src/server/sessionManager.ts`)

The registry is a `Map<string, Session>`; `Map` iteration order (insertion
order) is kept by modelling it as a list of sessions with unique ids.
Presence is derived: `getInRoom` filters the registry by `roomId` and
`userId`. -/

/-- `sessions.get(sid)` (also `SessionManager.get`). -/
def findSession : List Sess → String → Option Sess
  | [], _ => none
  | s :: rest, sid => if s.id = sid then some s else findSession rest sid

/-- `SessionManager.add`: `Map.set` keyed by `session.id`. -/
def addSession : List Sess → Sess → List Sess
  | [], s => [s]
  | t :: rest, s => if t.id = s.id then s :: rest else t :: addSession rest s

/-- `SessionManager.remove`: `Map.delete`. -/
def removeSession : List Sess → String → List Sess
  | [], _ => []
  | t :: rest, sid =>
    if t.id = sid then removeSession rest sid else t :: removeSession rest sid

/-- In-place mutation of the `Session` object held by the registry
(JavaScript aliasing: handlers mutate the same object the map stores). -/
def updateSession : List Sess → String → (Sess → Sess) → List Sess
  | [], _, _ => []
  | t :: rest, sid, f =>
    if t.id = sid then f t :: rest else t :: updateSession rest sid f

/-- `SessionManager.getAuthenticated`: sessions with `userId !== undefined`. -/
def getAuthenticated (ss : List Sess) : List Sess :=
  ss.filter (fun s => s.userId.isSome)

/-- `SessionManager.getByUserId`: first session bound to the account. -/
def getByUserId : List Sess → Nat → Option Sess
  | [], _ => none
  | s :: rest, uid => if s.userId = some uid then some s else getByUserId rest uid

/-- `SessionManager.getInRoom`: the presence set of a room — sessions whose
`roomId` equals it and whose `userId` is set. -/
def getInRoom (ss : List Sess) (rid : Nat) : List Sess :=
  ss.filter (fun s => s.roomId = some rid && s.userId.isSome)

/-- `SessionManager.broadcastToRoom(roomId, message, excludeSessionId)`:
one `writeLine` per member of the room's presence set other than the
excluded session. -/
def broadcastToRoom (ss : List Sess) (rid : Nat) (msg : String)
    (excl : Option String) : List Write :=
  ((getInRoom ss rid).filter (fun s => some s.id ≠ excl)).map (fun s => (s.id, msg))

/-! ## Authentication flow state (`src/commands/authCommands.ts` 286-301)

`signupFlows`, `loginFlows` and `failedLoginAttempts` are module-level
`Map`s keyed by session id (the rate-limit `clientKey` is `session.id`). -/

/-- `AuthFlow.step` in the source: `'username' | 'password' | 'confirm_password'`. -/
inductive FlowStep where
  | username
  | password
  | confirmPassword
deriving DecidableEq, Repr

/-- One pending signup/login flow record. -/
structure AuthFlow where
  step : FlowStep
  username : Option String
  password : Option String
deriving DecidableEq, Repr

/-- One `failedLoginAttempts` record: `{ count, lastAttempt }`. -/
structure Attempts where
  count : Nat
  lastAttempt : Nat
deriving DecidableEq, Repr

/-- The global mutable state of the server core: the session registry and
the three auth-flow maps. -/
structure MudState where
  sessions : List Sess
  signupFlows : List (String × AuthFlow)
  loginFlows : List (String × AuthFlow)
  failedLoginAttempts : List (String × Attempts)
deriving DecidableEq, Repr

/-- Process start: no sessions, no flows, no rate-limit records. -/
def initialMudState : MudState := ⟨[], [], [], []⟩

/-! ## Persistence collaborator (SQLite models, out of scope per the spec)

Reads are supplied by a per-step oracle; writes are logged as `DbCall`s. -/

/-- The persistence calls a handler issues. -/
inductive DbCall where
  | createAccount (username password : String)
  | createPlayer (userId : Nat)
  | verifyCredential (username password : String)
  | updateRoomCall (userId roomId : Nat)
  | updateLastSeenCall (userId : Nat)
deriving DecidableEq, Repr

/-- Oracle for the reads one `__auth_flow__` step can perform:
`userModel.create` (new user id, or a thrown error message),
`userModel.authenticate` (`(user.id, user.username)`, or `null`), and the
`room_id` of the player row (after create-if-missing). -/
structure DbOracle where
  createResult : Except String Nat
  authResult : Option (Nat × String)
  playerRoom : Nat
deriving Repr

/-- Result of one handler invocation: the new global state, the writes, in
order, and the persistence calls made. -/
structure HandlerResult where
  state : MudState
  writes : List Write
  dbCalls : List DbCall
deriving Repr

/-! ## Validation predicates (`authCommands.ts` regexes) -/

/-- `/^[a-zA-Z0-9_]+$/`. -/
def isUsernameChar (c : Char) : Bool := c.isAlpha || c.isDigit || c = '_'

/-- `/^[a-zA-Z0-9_]+$/.test(input)`. -/
def validUsernameChars (s : String) : Bool :=
  0 < s.length && s.data.all isUsernameChar

/-- `/[A-Z]/.test(input)`. -/
def hasUppercase (s : String) : Bool := s.data.any (fun c => 'A' ≤ c && c ≤ 'Z')

/-- `/[a-z]/.test(input)`. -/
def hasLowercase (s : String) : Bool := s.data.any (fun c => 'a' ≤ c && c ≤ 'z')

/-- `/\d/.test(input)`. -/
def hasNumberChar (s : String) : Bool := s.data.any (fun c => '0' ≤ c && c ≤ '9')

/-- Prefix test on character lists. -/
def startsWithChars : List Char → List Char → Bool
  | [], _ => true
  | _ :: _, [] => false
  | p :: ps, c :: cs => p = c && startsWithChars ps cs

/-- Substring occurrence test (`String.prototype.includes`). -/
def containsSub : List Char → List Char → Bool
  | [], p => startsWithChars p []
  | c :: rest, p => startsWithChars p (c :: rest) || containsSub rest p

/-- `s.includes(sub)`. -/
def includesStr (s sub : String) : Bool := containsSub s.data sub.data

/-- Signup error triage (`part_006` line 480); the `SQLITE_CANTOPEN` code
check is folded into the message model. -/
def isSignupDbError (emsg : String) : Bool :=
  includesStr emsg "Database connection failed" || includesStr emsg "database" ||
    includesStr emsg "connection"

/-- Login error triage (`part_006` line 600). -/
def isLoginDbError (emsg : String) : Bool :=
  includesStr emsg "database" || includesStr emsg "connection"

/-- `getWelcomeArt()`: the ASCII banner; its glyphs are immaterial to every
property proved here, so the constant abbreviates them. -/
def getWelcomeArt : String := "\n[ATC MUD ASCII banner]\n"

/-- Rate-limit refusal line. -/
def tooManyAttemptsMsg : String :=
  "Too many failed login attempts. Please wait 5 minutes before trying again."

/-- The 5-minute cooldown window, in milliseconds. -/
def rateLimitWindowMs : Nat := 5 * 60 * 1000

/-- The failed-attempt threshold. -/
def rateLimitThreshold : Nat := 3

/-! ## World data (`src/models/room.ts`, `src/models/npc.ts` tables) -/

/-- A `rooms` row. -/
structure RoomData where
  id : Nat
  name : String
  description : String
deriving DecidableEq, Repr

/-- An `exits` row. -/
structure ExitData where
  fromRoomId : Nat
  toRoomId : Nat
  direction : String
deriving DecidableEq, Repr

/-- An `npcs` row (the fields `look` uses). -/
structure NpcData where
  name : String
  roomId : Nat
  traits : String
deriving DecidableEq, Repr

/-- The world tables, read through the persistence collaborator. -/
structure World where
  rooms : List RoomData
  exits : List ExitData
  npcs : List NpcData
deriving Repr

/-- Stable insertion into a sorted list: the model of stable comparator
sort (`Array.prototype.sort` is stable). -/
def insertSorted {α : Type} (le : α → α → Bool) (x : α) : List α → List α
  | [] => [x]
  | y :: ys => if le x y then x :: y :: ys else y :: insertSorted le x ys

/-- Stable sort by a boolean `≤` test. -/
def sortByStable {α : Type} (le : α → α → Bool) : List α → List α
  | [] => []
  | x :: xs => insertSorted le x (sortByStable le xs)

/-- `Room.findById`: `SELECT * FROM rooms WHERE id = ?`. -/
def findRoomById (w : World) (rid : Nat) : Option RoomData :=
  w.rooms.find? (fun r => r.id = rid)

/-- `Room.getExitsFromRoom`:
`SELECT * FROM exits WHERE from_room_id = ? ORDER BY direction`. -/
def getExitsFromRoom (w : World) (rid : Nat) : List ExitData :=
  sortByStable (fun a b => a.direction ≤ b.direction)
    (w.exits.filter (fun e => e.fromRoomId = rid))

/-- `Room.getExitByDirection`:
`SELECT * FROM exits WHERE from_room_id = ? AND direction = ? COLLATE NOCASE`. -/
def getExitByDirection (w : World) (rid : Nat) (direction : String) : Option ExitData :=
  w.exits.find? (fun e =>
    e.fromRoomId = rid && toLowerStr e.direction = toLowerStr direction)

/-- `NPCModel.findByRoomId`. -/
def npcsInRoom (w : World) (rid : Nat) : List NpcData :=
  w.npcs.filter (fun n => n.roomId = rid)

/-- `priorityOrder.indexOf(direction)` with `-1 ↦ 999`
(`worldCommands.ts` 42-47). -/
def lookExitPriority (d : String) : Nat :=
  if d = "west" then 0
  else if d = "south" then 1
  else if d = "north" then 2
  else if d = "east" then 3
  else 999

/-- The `look` handler's exit comparator: priority index, ties broken by
`localeCompare` (code-unit order on these ASCII words). -/
def lookSortExits (exits : List ExitData) : List ExitData :=
  sortByStable (fun a b =>
    if lookExitPriority a.direction = lookExitPriority b.direction then
      decide (a.direction ≤ b.direction)
    else decide (lookExitPriority a.direction < lookExitPriority b.direction)) exits

/-! ## World command handlers (`src/commands/worldCommands.ts`) -/

/-- The `look` handler (`worldCommands.ts` 14-87).  The NPC fallback paths
for database errors do not arise: the oracle world is total. -/
def lookCommand (w : World) (st : MudState) (sid : String) : HandlerResult :=
  match findSession st.sessions sid with
  | none => ⟨st, [], []⟩
  | some sess =>
    if sess.state ≠ SessionState.authenticated then
      ⟨st, [(sid, "You must be logged in to look around.")], []⟩
    else
      match sess.roomId with
      | none => ⟨st, [(sid, "You are not in any room.")], []⟩
      | some rid =>
        if rid = 0 then ⟨st, [(sid, "You are not in any room.")], []⟩
        else
          match findRoomById w rid with
          | none => ⟨st, [(sid, "This room does not exist.")], []⟩
          | some room =>
            let exits := lookSortExits (getExitsFromRoom w rid)
            let exitsLine :=
              if exits.isEmpty then "Exits: none"
              else "Exits: " ++ String.intercalate ", " (exits.map (fun e => e.direction))
            let others := (getInRoom st.sessions rid).filter
              (fun o => o.username.isSome && o.username ≠ sess.username)
            let playersLine :=
              if others.isEmpty then "Players here: none"
              else "Players here: " ++
                String.intercalate ", " (others.map (fun o => o.username.getD ""))
            let npcs := npcsInRoom w rid
            let npcsLine :=
              if npcs.isEmpty then "NPCs here: none"
              else "NPCs here: " ++ String.intercalate ", " (npcs.map (fun n => n.name))
            ⟨st, [(sid, "\r\n" ++ room.name), (sid, room.description),
                  (sid, exitsLine), (sid, playersLine), (sid, npcsLine), (sid, "")], []⟩

/-- The `move` handler (`worldCommands.ts` 111-188).  `!session.roomId` is
JavaScript-falsy, hence the explicit `rid = 0` branch.  The final
re-render, `await dispatcher.dispatch(session, 'look')`, resolves (there
is no alias `"look"`) to the `look` handler and is modelled as a direct
call to it. -/
def moveCommand (w : World) (st : MudState) (sid : String) (args : List String) :
    HandlerResult :=
  match findSession st.sessions sid with
  | none => ⟨st, [], []⟩
  | some sess =>
    if sess.state ≠ SessionState.authenticated then
      ⟨st, [(sid, "You must be logged in to move.")], []⟩
    else
      match sess.roomId with
      | none => ⟨st, [(sid, "You are not in any room.")], []⟩
      | some rid =>
        if rid = 0 then ⟨st, [(sid, "You are not in any room.")], []⟩
        else
          match args.head? with
          | none => ⟨st, [(sid, "Move where? Specify a direction (n, s, e, w, etc.)")], []⟩
          | some dirArg =>
            let direction := normalizeDirection dirArg
            match getExitByDirection w rid direction with
            | none => ⟨st, [(sid, "You cannot go " ++ direction ++ " from here.")], []⟩
            | some exitRow =>
              match findRoomById w exitRow.toRoomId with
              | none => ⟨st, [(sid, "That exit leads nowhere.")], []⟩
              | some _destRoom =>
                let uname := sess.username.getD ""
                let depWrites := broadcastToRoom st.sessions rid
                  (uname ++ " goes " ++ direction ++ ".") (some sid)
                let sessions2 := updateSession st.sessions sid
                  (fun s => { s with roomId := some exitRow.toRoomId })
                let st2 : MudState := { st with sessions := sessions2 }
                let dbCalls :=
                  match sess.userId with
                  | some uid => [DbCall.updateRoomCall uid exitRow.toRoomId]
                  | none => []
                let arrWrites := broadcastToRoom sessions2 exitRow.toRoomId
                  (uname ++ " arrives from the " ++ getDirectionOpposite direction ++ ".")
                  (some sid)
                let lookRes := lookCommand w st2 sid
                ⟨lookRes.state,
                  depWrites ++ arrWrites ++
                    [(sid, "\r\nYou go " ++ direction ++ ".\r\n")] ++ lookRes.writes,
                  dbCalls ++ lookRes.dbCalls⟩

/-! ## Authentication handlers (`src/commands/authCommands.ts`, full
version of `part_006` 325-619) -/

/-- The `signup` command (`part_006` 330-345): refuse when already
authenticated, else create a fresh signup flow at the username step and
enter `AUTHENTICATING`. -/
def signupCommand (st : MudState) (sid : String) : HandlerResult :=
  match findSession st.sessions sid with
  | none => ⟨st, [], []⟩
  | some sess =>
    if sess.state = SessionState.authenticated then
      ⟨st, [(sid, "You are already logged in.")], []⟩
    else
      ⟨{ st with
          signupFlows := mset st.signupFlows sid ⟨FlowStep.username, none, none⟩,
          sessions := updateSession st.sessions sid
            (fun s => { s with state := SessionState.authenticating }) },
        [(sid, "Choose a username:")], []⟩

/-- The `login` command (`part_006` 348-377): refuse when already
authenticated; refuse with a wait message when the per-session
`failedLoginAttempts` record has reached the threshold inside the cooldown
window, deleting the record instead once the window has elapsed; else
create a fresh login flow and enter `AUTHENTICATING`. -/
def loginCommand (st : MudState) (sid : String) (now : Nat) : HandlerResult :=
  match findSession st.sessions sid with
  | none => ⟨st, [], []⟩
  | some sess =>
    if sess.state = SessionState.authenticated then
      ⟨st, [(sid, "You are already logged in.")], []⟩
    else
      let proceed : MudState → HandlerResult := fun st1 =>
        ⟨{ st1 with
            loginFlows := mset st1.loginFlows sid ⟨FlowStep.username, none, none⟩,
            sessions := updateSession st1.sessions sid
              (fun s => { s with state := SessionState.authenticating }) },
          [(sid, "Username:")], []⟩
      match mget st.failedLoginAttempts sid with
      | some attempts =>
        if rateLimitThreshold ≤ attempts.count then
          if now - attempts.lastAttempt < rateLimitWindowMs then
            ⟨st, [(sid, tooManyAttemptsMsg)], []⟩
          else
            proceed { st with failedLoginAttempts := mdel st.failedLoginAttempts sid }
        else proceed st
      | none => proceed st

/-- One signup-flow input (`part_006` 391-490). -/
def signupFlowStep (st : MudState) (sid : String) (input : String) (sess : Sess)
    (flow : AuthFlow) (db : DbOracle) : HandlerResult :=
  match flow.step with
  | FlowStep.username =>
    if !validUsernameChars input then
      ⟨st, [(sid, "Username can only contain letters, numbers, and underscores."),
            (sid, "Choose a username:")], []⟩
    else if input.length < 3 || 20 < input.length then
      ⟨st, [(sid, "Username must be between 3 and 20 characters."),
            (sid, "Choose a username:")], []⟩
    else
      let flows2 := mset st.signupFlows sid { flow with username := some input, step := FlowStep.password }
      ⟨{ st with signupFlows := flows2 }, [(sid, "Choose a password:")], []⟩
  | FlowStep.password =>
    if input.length < 6 then
      ⟨st, [(sid, "Password must be at least 6 characters."),
            (sid, "Choose a password:")], []⟩
    else if !(hasUppercase input && hasLowercase input && hasNumberChar input) then
      ⟨st, [(sid, "Password must contain at least one uppercase letter, one lowercase letter, and one number."),
            (sid, "Choose a password:")], []⟩
    else
      let flows2 := mset st.signupFlows sid { flow with password := some input, step := FlowStep.confirmPassword }
      ⟨{ st with signupFlows := flows2 }, [(sid, "Confirm password:")], []⟩
  | FlowStep.confirmPassword =>
    if some input ≠ flow.password then
      let flows2 := mset st.signupFlows sid { flow with step := FlowStep.password }
      ⟨{ st with signupFlows := flows2 },
        [(sid, "Passwords do not match. Please try again."),
         (sid, "Choose a password:")], []⟩
    else
      match db.createResult with
      | Except.ok userId =>
        let uname := flow.username.getD ""
        let newSess : Sess :=
          { sess with
            userId := some userId,
            username := flow.username,
            roomId := some 1,
            state := SessionState.authenticated }
        let sessions2 := addSession st.sessions newSess
        ⟨{ st with sessions := sessions2, signupFlows := mdel st.signupFlows sid },
          [(sid, getWelcomeArt),
           (sid, "\r\nAccount created. Welcome, " ++ uname ++ "!"),
           (sid, "\r\nYou appear at The Alamo Plaza"),
           (sid, "Stone walls surround you. Tourists move in and out of the courtyard."),
           (sid, "Type `help` for a list of commands.\r\n")] ++
            broadcastToRoom sessions2 1 (uname ++ " has joined the game.") (some sid),
          [DbCall.createAccount uname (flow.password.getD ""),
           DbCall.createPlayer userId]⟩
      | Except.error emsg =>
        ⟨{ st with
            signupFlows := mdel st.signupFlows sid,
            sessions := updateSession st.sessions sid (fun s => { s with state := SessionState.connected }) },
          [(sid, if isSignupDbError emsg then
              "Service temporarily unavailable. Please try again later."
            else "Error: " ++ emsg)],
          [DbCall.createAccount (flow.username.getD "") (flow.password.getD "")]⟩

/-- Promotion on successful login (`part_006` 550-589). -/
def loginFinish (st1 : MudState) (sid : String) (sess : Sess) (uname : String)
    (input : String) (uid : Nat) (accountName : String) (db : DbOracle) :
    HandlerResult :=
  let newSess : Sess :=
    { sess with
      userId := some uid,
      username := some accountName,
      roomId := some db.playerRoom,
      state := SessionState.authenticated }
  let sessions2 := addSession st1.sessions newSess
  ⟨{ st1 with
      sessions := sessions2,
      failedLoginAttempts := mdel st1.failedLoginAttempts sid,
      loginFlows := mdel st1.loginFlows sid },
    [(sid, getWelcomeArt),
     (sid, "\r\nWelcome back, " ++ accountName ++ "!"),
     (sid, "Type `look` to see your surroundings."),
     (sid, "Type `help` for a list of commands.\r\n")] ++
      broadcastToRoom sessions2 db.playerRoom
        (accountName ++ " has joined the game.") (some sid),
    [DbCall.verifyCredential uname input, DbCall.updateLastSeenCall uid]⟩

/-- Credential verification and its three outcomes (`part_006` 517-548):
failure records a failed attempt; success is refused when another session
is already bound to the account; otherwise the session is promoted. -/
def loginAuthenticate (st1 : MudState) (sid : String) (input : String)
    (now : Nat) (sess : Sess) (flow : AuthFlow) (db : DbOracle) : HandlerResult :=
  let uname := flow.username.getD ""
  match db.authResult with
  | none =>
    let prev := (mget st1.failedLoginAttempts sid).getD ⟨0, 0⟩
    ⟨{ st1 with
        failedLoginAttempts := mset st1.failedLoginAttempts sid ⟨prev.count + 1, now⟩,
        loginFlows := mdel st1.loginFlows sid,
        sessions := updateSession st1.sessions sid (fun s => { s with state := SessionState.connected }) },
      [(sid, "Invalid username or password.")],
      [DbCall.verifyCredential uname input]⟩
  | some (uid, accountName) =>
    match getByUserId st1.sessions uid with
    | some existing =>
      if existing.id ≠ sid then
        ⟨{ st1 with
            loginFlows := mdel st1.loginFlows sid,
            sessions := updateSession st1.sessions sid (fun s => { s with state := SessionState.connected }) },
          [(sid, "This user is already logged in. Please disconnect the other session first.")],
          [DbCall.verifyCredential uname input]⟩
      else loginFinish st1 sid sess uname input uid accountName db
    | none => loginFinish st1 sid sess uname input uid accountName db

/-- One login-flow input (`part_006` 493-609). -/
def loginFlowStep (st : MudState) (sid : String) (input : String) (now : Nat)
    (sess : Sess) (flow : AuthFlow) (db : DbOracle) : HandlerResult :=
  match flow.step with
  | FlowStep.username =>
    let flows2 := mset st.loginFlows sid { flow with username := some input, step := FlowStep.password }
    ⟨{ st with loginFlows := flows2 }, [(sid, "Password:")], []⟩
  | FlowStep.password =>
    match mget st.failedLoginAttempts sid with
    | some attempts =>
      if rateLimitThreshold ≤ attempts.count then
        if now - attempts.lastAttempt < rateLimitWindowMs then
          ⟨{ st with
              loginFlows := mdel st.loginFlows sid,
              sessions := updateSession st.sessions sid (fun s => { s with state := SessionState.connected }) },
            [(sid, tooManyAttemptsMsg)], []⟩
        else
          loginAuthenticate
            { st with failedLoginAttempts := mdel st.failedLoginAttempts sid }
            sid input now sess flow db
      else loginAuthenticate st sid input now sess flow db
    | none => loginAuthenticate st sid input now sess flow db
  | FlowStep.confirmPassword => ⟨st, [], []⟩

/-- The fall-through check at the end of the `__auth_flow__` handler
(`part_006` 611-618), evaluated on the handler's resulting state.  (Every
login-flow path that reaches it leaves either a pending flow or a
non-`AUTHENTICATING` state, so for those paths it adds nothing; the paths
the source exits with `return` satisfy the same disjunction.) -/
def trailingExpiredCheck (r : HandlerResult) (sid : String) : HandlerResult :=
  if mget r.state.signupFlows sid = none ∧ mget r.state.loginFlows sid = none then
    match findSession r.state.sessions sid with
    | some s2 =>
      if s2.state = SessionState.authenticating then
        ⟨{ r.state with
            sessions := updateSession r.state.sessions sid (fun s => { s with state := SessionState.connected }) },
          r.writes ++ [(sid, "Authentication session expired. Please start over.")],
          r.dbCalls⟩
      else r
    | none => r
  else r

/-- The `__auth_flow__` handler (`part_006` 380-619): expired-session
check, then the signup branch, then the login branch, then the trailing
expired check. -/
def authFlowCommand (st : MudState) (sid : String) (input : String) (now : Nat)
    (db : DbOracle) : HandlerResult :=
  match findSession st.sessions sid with
  | none => ⟨st, [], []⟩
  | some sess =>
    if sess.state = SessionState.authenticating ∧ mget st.signupFlows sid = none ∧
        mget st.loginFlows sid = none then
      ⟨{ st with
          sessions := updateSession st.sessions sid (fun s => { s with state := SessionState.connected }) },
        [(sid, "Authentication session expired. Please start over.")], []⟩
    else
      match mget st.signupFlows sid with
      | some flow => signupFlowStep st sid input sess flow db
      | none =>
        match mget st.loginFlows sid with
        | some flow => trailingExpiredCheck (loginFlowStep st sid input now sess flow db) sid
        | none => trailingExpiredCheck ⟨st, [], []⟩ sid

/-! ## Session lifecycle events (`basicCommands`, `session.ts`, `server.ts`) -/

/-- The `quit` command (`basicCommands`, `npcCommands.ts` 281-296):
announce to the room, save, farewell lines, then `session.disconnect()`
(which sets the state to `DISCONNECTED`; the registry entry remains until
the `disconnect` event is handled). -/
def quitCommand (st : MudState) (sid : String) : HandlerResult :=
  match findSession st.sessions sid with
  | none => ⟨st, [], []⟩
  | some sess =>
    let announce :=
      match sess.username, sess.roomId with
      | some uname, some rid =>
        broadcastToRoom st.sessions rid (uname ++ " has left the game.") (some sid)
      | _, _ => []
    let dbCalls :=
      match sess.userId, sess.roomId with
      | some uid, some rid => [DbCall.updateRoomCall uid rid, DbCall.updateLastSeenCall uid]
      | _, _ => []
    ⟨{ st with
        sessions := updateSession st.sessions sid (fun s => { s with state := SessionState.disconnected }) },
      announce ++ [(sid, "Goodbye! Your progress has been saved."), (sid, "Connection closed.")],
      dbCalls⟩

/-- The socket `end`/`error` handlers (`session.ts` 60-85):
`setState(DISCONNECTED)` (the `disconnect` event then fires separately). -/
def socketEndEvent (st : MudState) (sid : String) : MudState :=
  { st with
    sessions := updateSession st.sessions sid (fun s => { s with state := SessionState.disconnected }) }

/-- The server's `disconnect` handler (`server.ts` 107-152): save player
state, announce the departure to the room, then remove the session from
the registry.  The pending-flow maps are not touched. -/
def cleanupEvent (st : MudState) (sid : String) : HandlerResult :=
  match findSession st.sessions sid with
  | none => ⟨st, [], []⟩
  | some sess =>
    let writes :=
      match sess.userId, sess.roomId, sess.username with
      | some _, some rid, some uname =>
        broadcastToRoom st.sessions rid (uname ++ " has left the game.") (some sid)
      | _, _, _ => []
    let dbCalls :=
      match sess.userId, sess.roomId with
      | some uid, some rid => [DbCall.updateRoomCall uid rid, DbCall.updateLastSeenCall uid]
      | _, _ => []
    ⟨{ st with sessions := removeSession st.sessions sid }, writes, dbCalls⟩

/-- The authentication timeout callback (`session.ts` 257-263): emit
`authTimeout` and return the session to `CONNECTED`.  The pending-flow
maps are not touched. -/
def authTimeoutEvent (st : MudState) (sid : String) : MudState :=
  { st with
    sessions := updateSession st.sessions sid (fun s => { s with state := SessionState.connected }) }

/-- Connection accept (`server.ts` 79-81 with the `Session` constructor):
a fresh session in state `CONNECTED` with no identity fields, added to the
registry. -/
def connectEvent (st : MudState) (sid : String) : MudState :=
  { st with sessions := addSession st.sessions ⟨sid, SessionState.connected, none, none, none⟩ }

/-! ## The transition system

One event per atomic synchronous block of the source (no `await` occurs
inside any of the modelled blocks between its first and last mutation of
the shared state). -/

/-- Events of the session orchestration core. -/
inductive Ev where
  | connect (sid : String)
  | signup (sid : String)
  | login (sid : String) (now : Nat)
  | authLine (sid : String) (input : String) (now : Nat) (db : DbOracle)
  | authTimeoutFires (sid : String)
  | quit (sid : String)
  | socketEnd (sid : String)
  | cleanup (sid : String)
  | move (sid : String) (args : List String)

/-- Applying one event to the global state. -/
def applyEv (w : World) (st : MudState) : Ev → MudState
  | Ev.connect sid => connectEvent st sid
  | Ev.signup sid => (signupCommand st sid).state
  | Ev.login sid now => (loginCommand st sid now).state
  | Ev.authLine sid input now db => (authFlowCommand st sid input now db).state
  | Ev.authTimeoutFires sid => authTimeoutEvent st sid
  | Ev.quit sid => (quitCommand st sid).state
  | Ev.socketEnd sid => socketEndEvent st sid
  | Ev.cleanup sid => (cleanupEvent st sid).state
  | Ev.move sid args => (moveCommand w st sid args).state

/-- The lifecycle state of a registered session. -/
def sessionStateOf (st : MudState) (sid : String) : Option SessionState :=
  (findSession st.sessions sid).map Sess.state

/-- When an event can occur.  `connect` carries a fresh id (ids embed
`Date.now()` plus a random suffix); command events cannot fire while the
session is `AUTHENTICATING` because the server routes every line of an
`AUTHENTICATING` session to `__auth_flow__` (`server.ts` 94-104); the auth
timer is pending exactly while the session is `AUTHENTICATING` (started on
entering, cleared on leaving and on `disconnect()`); the `disconnect`
event fires after the socket handlers set `DISCONNECTED`. -/
def evGuard (st : MudState) : Ev → Prop
  | Ev.connect sid => findSession st.sessions sid = none ∧
      mget st.signupFlows sid = none ∧ mget st.loginFlows sid = none ∧
      mget st.failedLoginAttempts sid = none
  | Ev.signup sid => sessionStateOf st sid ≠ some SessionState.authenticating
  | Ev.login sid _ => sessionStateOf st sid ≠ some SessionState.authenticating
  | Ev.authLine _ _ _ _ => True
  | Ev.authTimeoutFires sid => sessionStateOf st sid = some SessionState.authenticating
  | Ev.quit sid => sessionStateOf st sid ≠ some SessionState.authenticating
  | Ev.socketEnd _ => True
  | Ev.cleanup sid => sessionStateOf st sid = some SessionState.disconnected
  | Ev.move sid _ => sessionStateOf st sid ≠ some SessionState.authenticating

instance evGuardDecidable (st : MudState) (e : Ev) : Decidable (evGuard st e) := by
  cases e <;> simp only [evGuard] <;> infer_instance

/-- Folding a list of events over a state. -/
def applyTrace (w : World) (st : MudState) : List Ev → MudState
  | [] => st
  | e :: evs => applyTrace w (applyEv w st e) evs

/-- A trace whose every event satisfies its guard and, additionally, a
side condition `P` at the state where it fires. -/
def stepOk (P : MudState → Ev → Prop) (w : World) : MudState → List Ev → Prop
  | _, [] => True
  | st, e :: evs => evGuard st e ∧ P st e ∧ stepOk P w (applyEv w st e) evs

/-- The unconditional guard-respecting traces. -/
def traceOk (w : World) (st : MudState) (evs : List Ev) : Prop :=
  stepOk (fun _ _ => True) w st evs

instance stepOkDecidable (P : MudState → Ev → Prop)
    [inst : ∀ st e, Decidable (P st e)] (w : World) :
    (st : MudState) → (evs : List Ev) → Decidable (stepOk P w st evs)
  | _, [] => Decidable.isTrue trivial
  | st, e :: evs =>
    have : Decidable (stepOk P w (applyEv w st e) evs) :=
      stepOkDecidable P w (applyEv w st e) evs
    inferInstanceAs (Decidable (_ ∧ _ ∧ _))

instance traceOkDecidable (w : World) (st : MudState) (evs : List Ev) :
    Decidable (traceOk w st evs) :=
  @stepOkDecidable (fun _ _ => True) (fun _ _ => Decidable.isTrue trivial) w st evs

/-- Normal input routing: no line is processed on behalf of a session that
has already disconnected, and `__auth_flow__` input arrives only through
the server's routing of lines from `AUTHENTICATING` sessions. -/
def routedOk (st : MudState) : Ev → Prop
  | Ev.signup sid => sessionStateOf st sid ≠ some SessionState.disconnected
  | Ev.login sid _ => sessionStateOf st sid ≠ some SessionState.disconnected
  | Ev.quit sid => sessionStateOf st sid ≠ some SessionState.disconnected
  | Ev.move sid _ => sessionStateOf st sid ≠ some SessionState.disconnected
  | Ev.authLine sid _ _ _ => sessionStateOf st sid = some SessionState.authenticating
  | _ => True

instance routedOkDecidable (st : MudState) (e : Ev) : Decidable (routedOk st e) := by
  cases e <;> simp only [routedOk] <;> infer_instance

/-- No authentication timeout fires, and no session disconnects or is
cleaned up while it still holds a pending flow. -/
def flowQuiet (st : MudState) : Ev → Prop
  | Ev.authTimeoutFires _ => False
  | Ev.quit sid => mget st.signupFlows sid = none ∧ mget st.loginFlows sid = none
  | Ev.socketEnd sid => mget st.signupFlows sid = none ∧ mget st.loginFlows sid = none
  | Ev.cleanup sid => mget st.signupFlows sid = none ∧ mget st.loginFlows sid = none
  | _ => True

instance flowQuietDecidable (st : MudState) (e : Ev) : Decidable (flowQuiet st e) := by
  cases e <;> simp only [flowQuiet] <;> infer_instance

/-! ## Invariants -/

/-- The pending-flow invariant of claim C4: a flow exists only for a
registered `AUTHENTICATING` session, and never both kinds at once. -/
def flowInv (st : MudState) : Prop :=
  ∀ sid,
    ((mget st.signupFlows sid ≠ none ∨ mget st.loginFlows sid ≠ none) →
      sessionStateOf st sid = some SessionState.authenticating) ∧
    ¬(mget st.signupFlows sid ≠ none ∧ mget st.loginFlows sid ≠ none)

/-! # Theorems

Helper lemmas first, then one theorem per claim (with its witness or
counterexample). -/

/-! ## Line framing lemmas -/

theorem processBuffer_none {s : List Char} (h : findTermIdx s = none) :
    processBuffer s = (s, []) := by
  conv_lhs => rw [processBuffer.eq_def, h]

theorem processBuffer_some {s : List Char} {i : Nat} (h : findTermIdx s = some i) :
    processBuffer s =
      ((processBuffer (s.drop (i + 1))).1,
        if trimChars (s.take i) = [] then (processBuffer (s.drop (i + 1))).2
        else trimChars (s.take i) :: (processBuffer (s.drop (i + 1))).2) := by
  conv_lhs => rw [processBuffer.eq_def, h]

theorem findTermIdx_lt {s : List Char} {i : Nat} (h : findTermIdx s = some i) :
    i < s.length := by
  induction s generalizing i with
  | nil => simp [findTermIdx] at h
  | cons c rest ih =>
    simp only [findTermIdx] at h
    split at h
    · cases h; simp
    · split at h
      · cases h; simp
      · cases hr : findTermIdx rest with
        | none => rw [hr] at h; simp at h
        | some j =>
          rw [hr] at h
          simp only [Option.map_some', Option.some.injEq] at h
          have hj := ih hr
          simp only [List.length_cons]
          omega

theorem findTermIdx_append {s t : List Char} {i : Nat} (h : findTermIdx s = some i) :
    findTermIdx (s ++ t) = some i := by
  induction s generalizing i with
  | nil => simp [findTermIdx] at h
  | cons c rest ih =>
    by_cases hc : c = '\n'
    · simp [findTermIdx, hc] at h ⊢; omega
    · by_cases hcr : c = '\r' ∧ rest.head? = some '\n'
      · have hne : rest ≠ [] := by
          intro he; rw [he] at hcr; simp at hcr
        have hhead : (rest ++ t).head? = some '\n' := by
          cases rest with
          | nil => exact absurd rfl hne
          | cons a b => simpa using hcr.2
        have h0 : i = 0 := by
          simp [findTermIdx, hc, hcr.1, hcr.2] at h
          omega
        subst h0
        simp [findTermIdx, hc, hcr.1, hhead]
      · cases hr : findTermIdx rest with
        | none =>
          simp only [findTermIdx] at h
          rw [if_neg hc, if_neg hcr, hr] at h
          simp at h
        | some j =>
          have hne : rest ≠ [] := by
            intro he; rw [he] at hr; simp [findTermIdx] at hr
          have hhead : (rest ++ t).head? = rest.head? := by
            cases rest with
            | nil => exact absurd rfl hne
            | cons a b => simp
          have hcr2 : ¬(c = '\r' ∧ (rest ++ t).head? = some '\n') := by
            rw [hhead]; exact hcr
          simp only [findTermIdx] at h
          rw [if_neg hc, if_neg hcr, hr] at h
          simp only [List.cons_append, findTermIdx, List.append_eq]
          rw [if_neg hc, if_neg hcr2, ih hr]
          simp only [Option.map_some', Option.some.injEq] at h ⊢
          exact h

theorem findTermIdx_rest_aux :
    ∀ (n : Nat) (s : List Char), s.length ≤ n → findTermIdx (processBuffer s).1 = none := by
  intro n
  induction n with
  | zero =>
    intro s hs
    have hsnil : s = [] := by
      cases s with
      | nil => rfl
      | cons a b => simp at hs
    subst hsnil
    rw [processBuffer_none (by simp [findTermIdx])]
    simp [findTermIdx]
  | succ n ih =>
    intro s hs
    cases h : findTermIdx s with
    | none => rw [processBuffer_none h]; exact h
    | some i =>
      rw [processBuffer_some h]
      have hne : s ≠ [] := by
        intro he; rw [he] at h; simp [findTermIdx] at h
      have hlen : (s.drop (i + 1)).length ≤ n := by
        have : 1 ≤ s.length := by
          cases s with
          | nil => exact absurd rfl hne
          | cons a b => simp
        simp only [List.length_drop]
        omega
      exact ih (s.drop (i + 1)) hlen

theorem findTermIdx_rest (s : List Char) : findTermIdx (processBuffer s).1 = none :=
  findTermIdx_rest_aux s.length s le_rfl

theorem processBuffer_append_aux :
    ∀ (n : Nat) (s : List Char), s.length ≤ n → ∀ t : List Char,
      processBuffer (s ++ t) =
        ((processBuffer ((processBuffer s).1 ++ t)).1,
          (processBuffer s).2 ++ (processBuffer ((processBuffer s).1 ++ t)).2) := by
  intro n
  induction n with
  | zero =>
    intro s hs t
    have hsnil : s = [] := by
      cases s with
      | nil => rfl
      | cons a b => simp at hs
    subst hsnil
    have h0 : processBuffer ([] : List Char) = ([], []) :=
      processBuffer_none (by simp [findTermIdx])
    simp [h0]
  | succ n ih =>
    intro s hs t
    cases h : findTermIdx s with
    | none =>
      rw [processBuffer_none h]
      simp
    | some i =>
      have hne : s ≠ [] := by
        intro he; rw [he] at h; simp [findTermIdx] at h
      have hlt : i < s.length := findTermIdx_lt h
      have h2 : findTermIdx (s ++ t) = some i := findTermIdx_append h
      rw [processBuffer_some h2, processBuffer_some h]
      rw [List.take_append_of_le_length (by omega)]
      rw [List.drop_append_of_le_length (by omega)]
      have hlen : (s.drop (i + 1)).length ≤ n := by
        simp only [List.length_drop]; omega
      rw [ih (s.drop (i + 1)) hlen t]
      by_cases hl : trimChars (s.take i) = []
      · simp [hl]
      · simp [hl]

theorem processBuffer_append (s t : List Char) :
    processBuffer (s ++ t) =
      ((processBuffer ((processBuffer s).1 ++ t)).1,
        (processBuffer s).2 ++ (processBuffer ((processBuffer s).1 ++ t)).2) :=
  processBuffer_append_aux s.length s le_rfl t

theorem splitSegments_nil : splitSegments [] = ([], []) := by
  rw [splitSegments.eq_def]

theorem splitSegments_newline (rest : List Char) :
    splitSegments ('\n' :: rest) = ([] :: (splitSegments rest).1, (splitSegments rest).2) := by
  rw [splitSegments.eq_def]
  simp

theorem splitSegments_crlf {rest : List Char} (h : rest.head? = some '\n') :
    splitSegments ('\r' :: rest) =
      ([] :: (splitSegments rest.tail).1, (splitSegments rest.tail).2) := by
  rw [splitSegments.eq_def]
  simp [h]

theorem splitSegments_other {c : Char} {rest : List Char}
    (hc : ¬ c = '\n') (hcr : ¬ (c = '\r' ∧ rest.head? = some '\n')) :
    splitSegments (c :: rest) =
      (match splitSegments rest with
       | (seg :: segs, rem) => ((c :: seg) :: segs, rem)
       | ([], rem) => ([], c :: rem)) := by
  rw [splitSegments.eq_def]
  dsimp only
  rw [if_neg hc, if_neg hcr]

theorem splitSegments_of_none {s : List Char} (h : findTermIdx s = none) :
    splitSegments s = ([], s) := by
  induction s with
  | nil => exact splitSegments_nil
  | cons c rest ih =>
    simp only [findTermIdx] at h
    by_cases hc : c = '\n'
    · rw [if_pos hc] at h; simp at h
    · rw [if_neg hc] at h
      by_cases hcr : c = '\r' ∧ rest.head? = some '\n'
      · rw [if_pos hcr] at h; simp at h
      · rw [if_neg hcr] at h
        have hrest : findTermIdx rest = none := by
          cases hx : findTermIdx rest with
          | none => rfl
          | some j => rw [hx] at h; simp at h
        rw [splitSegments_other hc hcr, ih hrest]

theorem findTermIdx_kind {s : List Char} {i : Nat} (h : findTermIdx s = some i) :
    (s.drop i).head? = some '\n' ∨
      ((s.drop i).head? = some '\r' ∧ (s.drop (i + 1)).head? = some '\n') := by
  induction s generalizing i with
  | nil => simp [findTermIdx] at h
  | cons c rest ih =>
    simp only [findTermIdx] at h
    by_cases hc : c = '\n'
    · rw [if_pos hc] at h
      have h0 : i = 0 := by simpa using h.symm
      subst h0
      left
      simp [hc]
    · rw [if_neg hc] at h
      by_cases hcr : c = '\r' ∧ rest.head? = some '\n'
      · rw [if_pos hcr] at h
        have h0 : i = 0 := by simpa using h.symm
        subst h0
        right
        simpa [hcr.1] using hcr.2
      · rw [if_neg hcr] at h
        cases hr : findTermIdx rest with
        | none => rw [hr] at h; simp at h
        | some j =>
          rw [hr] at h
          simp only [Option.map_some', Option.some.injEq] at h
          subst h
          simpa using ih hr

theorem splitSegments_of_some {s : List Char} {i : Nat} (h : findTermIdx s = some i) :
    splitSegments s =
      (s.take i :: (splitSegments (afterTerm s i)).1, (splitSegments (afterTerm s i)).2) := by
  induction s generalizing i with
  | nil => simp [findTermIdx] at h
  | cons c rest ih =>
    simp only [findTermIdx] at h
    by_cases hc : c = '\n'
    · rw [if_pos hc] at h
      have h0 : i = 0 := by simpa using h.symm
      subst h0
      subst hc
      have haft : afterTerm ('\n' :: rest) 0 = rest := by
        simp [afterTerm]
      rw [haft, splitSegments_newline]
      simp
    · rw [if_neg hc] at h
      by_cases hcr : c = '\r' ∧ rest.head? = some '\n'
      · rw [if_pos hcr] at h
        have h0 : i = 0 := by simpa using h.symm
        subst h0
        have haft : afterTerm (c :: rest) 0 = rest.tail := by
          simp [afterTerm, hcr.1]
        rw [haft, hcr.1, splitSegments_crlf hcr.2]
        simp
      · rw [if_neg hcr] at h
        cases hr : findTermIdx rest with
        | none => rw [hr] at h; simp at h
        | some j =>
          rw [hr] at h
          simp only [Option.map_some', Option.some.injEq] at h
          subst h
          have haft : afterTerm (c :: rest) (j + 1) = afterTerm rest j := by
            simp [afterTerm]
          rw [splitSegments_other hc hcr, ih hr, haft]
          simp

theorem processBuffer_newline (u : List Char) :
    processBuffer ('\n' :: u) = processBuffer u := by
  have h : findTermIdx ('\n' :: u) = some 0 := by simp [findTermIdx]
  rw [processBuffer_some h]
  simp [trimChars]

theorem processBuffer_eq_spec_aux :
    ∀ (n : Nat) (s : List Char), s.length ≤ n →
      processBuffer s = ((splitSegments s).2, specEmittedLines s) := by
  intro n
  induction n with
  | zero =>
    intro s hs
    have hsnil : s = [] := by
      cases s with
      | nil => rfl
      | cons a b => simp at hs
    subst hsnil
    rw [processBuffer_none (by simp [findTermIdx])]
    simp [specEmittedLines, splitSegments_nil]
  | succ n ih =>
    intro s hs
    cases h : findTermIdx s with
    | none =>
      rw [processBuffer_none h, splitSegments_of_none h]
      simp [specEmittedLines, splitSegments_of_none h]
    | some i =>
      have hne : s ≠ [] := by
        intro he; rw [he] at h; simp [findTermIdx] at h
      have hpos : 1 ≤ s.length := by
        cases s with
        | nil => exact absurd rfl hne
        | cons a b => simp
      have hss := splitSegments_of_some h
      rcases findTermIdx_kind h with hk | hk
      · have haft : afterTerm s i = s.drop (i + 1) := by
          simp [afterTerm, hk]
        have hlen : (s.drop (i + 1)).length ≤ n := by
          simp only [List.length_drop]; omega
        rw [processBuffer_some h, ih (s.drop (i + 1)) hlen]
        simp only [specEmittedLines, hss, haft]
        simp only [List.map_cons, List.filter_cons]
        by_cases hl : trimChars (s.take i) = []
        · simp [hl]
        · simp [hl]
      · have haft : afterTerm s i = s.drop (i + 2) := by
          simp [afterTerm, hk.1]
        have hdrop : s.drop (i + 1) = '\n' :: s.drop (i + 2) := by
          cases hD : s.drop (i + 1) with
          | nil => rw [hD] at hk; simp at hk
          | cons a u =>
            have ha : a = '\n' := by
              have := hk.2
              rw [hD] at this
              simpa using this
            have hu : u = s.drop (i + 2) := by
              have ht : (s.drop (i + 1)).tail = s.drop (i + 2) := by
                rw [List.tail_drop]
              rw [hD] at ht
              simpa using ht
            rw [ha, hu]
        have hlen : (s.drop (i + 2)).length ≤ n := by
          simp only [List.length_drop]; omega
        rw [processBuffer_some h, hdrop, processBuffer_newline,
          ih (s.drop (i + 2)) hlen]
        simp only [specEmittedLines, hss, haft]
        simp only [List.map_cons, List.filter_cons]
        by_cases hl : trimChars (s.take i) = []
        · simp [hl]
        · simp [hl]

theorem processBuffer_eq_spec (s : List Char) :
    processBuffer s = ((splitSegments s).2, specEmittedLines s) :=
  processBuffer_eq_spec_aux s.length s le_rfl

theorem feedChunks_eq_processBuffer :
    ∀ (chunks : List (List Char)) (r : List Char), findTermIdx r = none →
      feedChunks r chunks = processBuffer (r ++ chunks.flatten) := by
  intro chunks
  induction chunks with
  | nil =>
    intro r h
    rw [feedChunks]
    rw [List.flatten_nil, List.append_nil, processBuffer_none h]
  | cons c cs ih =>
    intro r h
    rw [feedChunks]
    have hres := findTermIdx_rest (r ++ c)
    rw [ih (processBuffer (r ++ c)).1 hres]
    have := processBuffer_append (r ++ c) cs.flatten
    rw [List.flatten_cons, ← List.append_assoc]
    rw [this]

/-- C8: for every received character sequence and every way of splitting it
into successive data chunks, the framing emits the same ordered sequence of
`line` events — the whitespace-trimmed text of each segment terminated by a
line feed optionally preceded by a carriage return, with segments that are
empty after trimming discarded — and retains exactly the unterminated
trailing fragment in the buffer.  (`splitSegments`/`specEmittedLines` are
the spec-side segmentation; `feedChunks`/`processBuffer` are the code.) -/
theorem c8_line_framing (chunks : List (List Char)) :
    feedChunks [] chunks =
      ((splitSegments chunks.flatten).2, specEmittedLines chunks.flatten) := by
  rw [feedChunks_eq_processBuffer chunks [] (by simp [findTermIdx])]
  rw [List.nil_append]
  exact processBuffer_eq_spec _

/-! ## Direction normalization (C10) -/

/-- C10: every value of the shortcut table (a full direction word) is a
fixed point of `normalizeDirection`, and on every token the table
recognizes (its lower-casing is a key), normalization composed with itself
equals normalization. -/
theorem c10_normalize_idempotent (tok : String) :
    (tok ∈ directionShortcuts.map Prod.snd → normalizeDirection tok = tok) ∧
    (toLowerStr tok ∈ directionShortcuts.map Prod.fst →
      normalizeDirection (normalizeDirection tok) = normalizeDirection tok) := by
  constructor
  · intro h
    simp only [directionShortcuts, List.map_cons, List.map_nil, List.mem_cons,
      List.not_mem_nil, or_false] at h
    rcases h with h|h|h|h|h|h|h|h|h|h|h|h|h|h|h|h|h|h|h|h <;> subst h <;> decide
  · intro h
    simp only [directionShortcuts, List.map_cons, List.map_nil, List.mem_cons,
      List.not_mem_nil, or_false] at h
    rcases h with h|h|h|h|h|h|h|h|h|h|h|h|h|h|h|h|h|h|h|h <;>
      simp only [normalizeDirection, h] <;> decide

/-- Witness for C10 at the concrete tokens `"north"` (a table value) and
`"NE"` (a recognized shortcut). -/
theorem c10_normalize_idempotent_witness :
    normalizeDirection "north" = "north" ∧
      normalizeDirection (normalizeDirection "NE") = normalizeDirection "NE" :=
  ⟨(c10_normalize_idempotent "north").1 (by decide),
   (c10_normalize_idempotent "NE").2 (by decide)⟩

/-! ## Command dispatch (C6, C7) -/

/-- C6: for every session (any state) and every input line whose first
token, lower-cased, is neither a registered command nor an alias of the
server's registry, `dispatch` writes exactly one error line — naming the
(lower-cased) token and pointing at `help` — returns (it is a total
function), and leaves the session record, hence its state, identity fields
and room, unchanged. -/
theorem c6_unknown_command (run : String → List String → Sess → HandlerOutcome)
    (sess : Sess) (input tok : String) (args : List String)
    (hnorm : normalizeInput input ≠ "")
    (hparts : parseParts input = tok :: args)
    (htok : tok ≠ "")
    (halias : mget serverAliases (toLowerStr tok) = none)
    (hcmd : serverCommandNames.contains (toLowerStr tok) = false) :
    dispatch serverCommandNames serverAliases run sess input =
      (sess, [(sess.id, "Unknown command: '" ++ toLowerStr tok ++
        "'. Type 'help' for a list of available commands.")]) := by
  have hcmd2 : toLowerStr tok ∉ serverCommandNames := by simpa using hcmd
  simp only [dispatch]
  rw [hparts]
  simp [hnorm, htok, resolveCommandName, halias, hcmd2]

/-- Witness for C6: the input `"frobnicate"` on a connected session. -/
theorem c6_unknown_command_witness :
    dispatch serverCommandNames serverAliases (fun _ _ s => HandlerOutcome.ok s [])
        ⟨"s1", SessionState.connected, none, none, none⟩ "frobnicate" =
      (⟨"s1", SessionState.connected, none, none, none⟩,
        [("s1", "Unknown command: 'frobnicate'. Type 'help' for a list of available commands.")]) :=
  c6_unknown_command (fun _ _ s => HandlerOutcome.ok s [])
    ⟨"s1", SessionState.connected, none, none, none⟩ "frobnicate" "frobnicate" []
    (by decide) (by decide) (by decide) (by decide) (by decide)

/-- C7: when the resolved command is registered and its handler throws (or
rejects), `dispatch` returns normally with the session exactly as the
handler left it — the catch block changes no session state — and the
handler's writes followed by exactly one generic error line; the failure
never propagates out of `dispatch`. -/
theorem c7_handler_fault_contained (run : String → List String → Sess → HandlerOutcome)
    (sess sess2 : Sess) (ws : List Write) (input tok : String) (args : List String)
    (hnorm : normalizeInput input ≠ "")
    (hparts : parseParts input = tok :: args)
    (htok : tok ≠ "")
    (hcmd : serverCommandNames.contains (resolveCommandName serverAliases (toLowerStr tok)) = true)
    (hrun : run (resolveCommandName serverAliases (toLowerStr tok)) args sess =
      HandlerOutcome.thrown sess2 ws) :
    dispatch serverCommandNames serverAliases run sess input =
      (sess2, ws ++ [(sess.id, "An error occurred while executing the command.")]) := by
  have hcmd2 : resolveCommandName serverAliases (toLowerStr tok) ∈ serverCommandNames := by
    simpa using hcmd
  simp only [dispatch]
  rw [hparts]
  simp [hnorm, htok, hcmd2, hrun]

/-- Witness for C7: a handler for `"look"` that always throws. -/
theorem c7_handler_fault_contained_witness :
    dispatch serverCommandNames serverAliases (fun _ _ s => HandlerOutcome.thrown s [])
        ⟨"s1", SessionState.connected, none, none, none⟩ "look" =
      (⟨"s1", SessionState.connected, none, none, none⟩,
        [("s1", "An error occurred while executing the command.")]) :=
  c7_handler_fault_contained (fun _ _ s => HandlerOutcome.thrown s [])
    ⟨"s1", SessionState.connected, none, none, none⟩
    ⟨"s1", SessionState.connected, none, none, none⟩ [] "look" "look" []
    (by decide) (by decide) (by decide) (by decide) rfl

/-! ## Map and registry lemmas -/

theorem mget_mset_self {α : Type} (m : List (String × α)) (k : String) (v : α) :
    mget (mset m k v) k = some v := by
  induction m with
  | nil => simp [mget, mset]
  | cons head rest ih =>
    rcases head with ⟨k1, v1⟩
    by_cases h : k1 = k
    · simp [mset, mget, h]
    · simp [mset, mget, h, ih]

theorem mget_mset_ne {α : Type} (m : List (String × α)) {k k2 : String} (v : α)
    (h : k2 ≠ k) : mget (mset m k v) k2 = mget m k2 := by
  induction m with
  | nil => simp [mget, mset, Ne.symm h]
  | cons head rest ih =>
    rcases head with ⟨k1, v1⟩
    by_cases h1 : k1 = k
    · subst h1
      simp [mset, mget, Ne.symm h]
    · simp [mset, mget, h1, ih]

theorem mget_mdel_self {α : Type} (m : List (String × α)) (k : String) :
    mget (mdel m k) k = none := by
  induction m with
  | nil => simp [mget, mdel]
  | cons head rest ih =>
    rcases head with ⟨k1, v1⟩
    by_cases h : k1 = k
    · simp [mdel, mget, h, ih]
    · simp [mdel, mget, h, ih]

theorem mget_mdel_ne {α : Type} (m : List (String × α)) {k k2 : String}
    (h : k2 ≠ k) : mget (mdel m k) k2 = mget m k2 := by
  induction m with
  | nil => simp [mget, mdel]
  | cons head rest ih =>
    rcases head with ⟨k1, v1⟩
    by_cases h1 : k1 = k
    · subst h1
      simp [mdel, mget, Ne.symm h, ih]
    · simp [mdel, mget, h1, ih]

theorem findSession_mem {ss : List Sess} {sid : String} {s : Sess}
    (h : findSession ss sid = some s) : s ∈ ss ∧ s.id = sid := by
  induction ss with
  | nil => simp [findSession] at h
  | cons head rest ih =>
    by_cases he : head.id = sid
    · simp only [findSession, if_pos he] at h
      cases h
      exact ⟨List.mem_cons_self _ _, he⟩
    · simp only [findSession, if_neg he] at h
      rcases ih h with ⟨h1, h2⟩
      exact ⟨List.mem_cons_of_mem _ h1, h2⟩

theorem mem_updateSession {ss : List Sess} {sid : String} {f : Sess → Sess} {t : Sess}
    (h : t ∈ updateSession ss sid f) :
    t ∈ ss ∨ ∃ s0, s0 ∈ ss ∧ s0.id = sid ∧ t = f s0 := by
  induction ss with
  | nil => simp [updateSession] at h
  | cons head rest ih =>
    by_cases he : head.id = sid
    · simp only [updateSession, if_pos he] at h
      rcases List.mem_cons.mp h with h1 | h1
      · exact Or.inr ⟨head, List.mem_cons_self _ _, he, h1⟩
      · exact Or.inl (List.mem_cons_of_mem _ h1)
    · simp only [updateSession, if_neg he] at h
      rcases List.mem_cons.mp h with h1 | h1
      · exact Or.inl (by simp [h1])
      · rcases ih h1 with h2 | h2
        · exact Or.inl (List.mem_cons_of_mem _ h2)
        · rcases h2 with ⟨s0, hs0, hid, hts⟩
          exact Or.inr ⟨s0, List.mem_cons_of_mem _ hs0, hid, hts⟩

theorem findSession_update_self {ss : List Sess} {sid : String} {s : Sess}
    (f : Sess → Sess) (hid : (f s).id = s.id)
    (h : findSession ss sid = some s) :
    findSession (updateSession ss sid f) sid = some (f s) := by
  induction ss with
  | nil => simp [findSession] at h
  | cons head rest ih =>
    by_cases he : head.id = sid
    · simp only [findSession, if_pos he] at h
      cases h
      simp only [updateSession, if_pos he]
      have h2 : (f s).id = sid := by rw [hid]; exact he
      simp [findSession, if_pos h2]
    · simp only [findSession, if_neg he] at h
      simp only [updateSession, if_neg he]
      simp only [findSession, if_neg he]
      exact ih h

theorem findSession_update_ne {ss : List Sess} {sid sid2 : String}
    (f : Sess → Sess) (hpres : ∀ s, (f s).id = s.id) (hne : sid2 ≠ sid) :
    findSession (updateSession ss sid f) sid2 = findSession ss sid2 := by
  induction ss with
  | nil => simp [findSession, updateSession]
  | cons head rest ih =>
    by_cases he : head.id = sid
    · simp only [updateSession, if_pos he]
      have h2 : ¬ (f head).id = sid2 := by
        rw [hpres, he]; exact fun hx => hne hx.symm
      have h3 : ¬ head.id = sid2 := by
        rw [he]; exact fun hx => hne hx.symm
      simp only [findSession, if_neg h2, if_neg h3]
    · simp only [updateSession, if_neg he]
      by_cases h4 : head.id = sid2
      · simp [findSession, if_pos h4]
      · simp only [findSession, if_neg h4]
        exact ih

theorem mem_getInRoom {ss : List Sess} {rid : Nat} {s : Sess} :
    s ∈ getInRoom ss rid ↔ s ∈ ss ∧ s.roomId = some rid ∧ s.userId.isSome := by
  simp [getInRoom, List.mem_filter, and_assoc]

/-! ## Signup confirmation step (C9) -/

/-- C9: at the confirmation step of a signup flow, a confirmation differing
from the collected password writes the mismatch line, re-prompts for a
password, and returns the flow to the password step with the collected
candidate username (and password) retained and the session registry
untouched; account creation (`userModel.create`) is attempted only when
the confirmation matches, and then with the collected username. -/
theorem c9_confirm_mismatch (st : MudState) (sid input : String) (now : Nat)
    (db : DbOracle) (sess : Sess) (flow : AuthFlow) (u p : String)
    (hsess : findSession st.sessions sid = some sess)
    (hflow : mget st.signupFlows sid = some flow)
    (hstep : flow.step = FlowStep.confirmPassword)
    (huser : flow.username = some u)
    (hpass : flow.password = some p) :
    (input ≠ p →
      authFlowCommand st sid input now db =
        ⟨{ st with signupFlows := mset st.signupFlows sid ⟨FlowStep.password, some u, some p⟩ },
          [(sid, "Passwords do not match. Please try again."),
           (sid, "Choose a password:")], []⟩ ∧
      mget (authFlowCommand st sid input now db).state.signupFlows sid =
        some ⟨FlowStep.password, some u, some p⟩) ∧
    (input = p →
      (authFlowCommand st sid input now db).dbCalls.head? =
        some (DbCall.createAccount u input)) := by
  rcases flow with ⟨fstep, fuser, fpass⟩
  simp only at hstep huser hpass
  subst hstep
  subst huser
  subst hpass
  constructor
  · intro hip
    have hmain : authFlowCommand st sid input now db =
        ⟨{ st with signupFlows := mset st.signupFlows sid ⟨FlowStep.password, some u, some p⟩ },
          [(sid, "Passwords do not match. Please try again."),
           (sid, "Choose a password:")], []⟩ := by
      simp [authFlowCommand, hsess, hflow, signupFlowStep, hip]
    refine ⟨hmain, ?_⟩
    rw [hmain]
    exact mget_mset_self _ _ _
  · intro hip
    subst hip
    cases hc : db.createResult with
    | ok uid => simp [authFlowCommand, hsess, hflow, signupFlowStep, hc]
    | error emsg => simp [authFlowCommand, hsess, hflow, signupFlowStep, hc]

/-- Witness for C9: a session at the confirmation step with collected
username `"alice"` and password `"Passw0rd"`, confirming `"nope"` and then
`"Passw0rd"`. -/
theorem c9_confirm_mismatch_witness :
    (authFlowCommand
        ⟨[⟨"A", SessionState.authenticating, none, none, none⟩],
         [("A", ⟨FlowStep.confirmPassword, some "alice", some "Passw0rd"⟩)], [], []⟩
        "A" "nope" 0 ⟨Except.ok 7, none, 1⟩ =
      ⟨⟨[⟨"A", SessionState.authenticating, none, none, none⟩],
        [("A", ⟨FlowStep.password, some "alice", some "Passw0rd"⟩)], [], []⟩,
        [("A", "Passwords do not match. Please try again."),
         ("A", "Choose a password:")], []⟩) ∧
    (authFlowCommand
        ⟨[⟨"A", SessionState.authenticating, none, none, none⟩],
         [("A", ⟨FlowStep.confirmPassword, some "alice", some "Passw0rd"⟩)], [], []⟩
        "A" "Passw0rd" 0 ⟨Except.ok 7, none, 1⟩).dbCalls.head? =
      some (DbCall.createAccount "alice" "Passw0rd") :=
  ⟨((c9_confirm_mismatch
      ⟨[⟨"A", SessionState.authenticating, none, none, none⟩],
       [("A", ⟨FlowStep.confirmPassword, some "alice", some "Passw0rd"⟩)], [], []⟩
      "A" "nope" 0 ⟨Except.ok 7, none, 1⟩
      ⟨"A", SessionState.authenticating, none, none, none⟩
      ⟨FlowStep.confirmPassword, some "alice", some "Passw0rd"⟩ "alice" "Passw0rd"
      rfl rfl rfl rfl rfl).1 (by decide)).1,
   (c9_confirm_mismatch
      ⟨[⟨"A", SessionState.authenticating, none, none, none⟩],
       [("A", ⟨FlowStep.confirmPassword, some "alice", some "Passw0rd"⟩)], [], []⟩
      "A" "Passw0rd" 0 ⟨Except.ok 7, none, 1⟩
      ⟨"A", SessionState.authenticating, none, none, none⟩
      ⟨FlowStep.confirmPassword, some "alice", some "Passw0rd"⟩ "alice" "Passw0rd"
      rfl rfl rfl rfl rfl).2 rfl⟩

theorem getByUserId_mem {ss : List Sess} {uid : Nat} {s : Sess}
    (h : getByUserId ss uid = some s) : s ∈ ss ∧ s.userId = some uid := by
  induction ss with
  | nil => simp [getByUserId] at h
  | cons head rest ih =>
    by_cases he : head.userId = some uid
    · simp only [getByUserId, if_pos he] at h
      cases h
      exact ⟨List.mem_cons_self _ _, he⟩
    · simp only [getByUserId, if_neg he] at h
      rcases ih h with ⟨h1, h2⟩
      exact ⟨List.mem_cons_of_mem _ h1, h2⟩

theorem mem_updateSession_of_ne {ss : List Sess} {sid : String} {f : Sess → Sess}
    {s : Sess} (hmem : s ∈ ss) (hne : s.id ≠ sid) : s ∈ updateSession ss sid f := by
  induction ss with
  | nil => simp at hmem
  | cons head rest ih =>
    rcases List.mem_cons.mp hmem with h1 | h1
    · subst h1
      simp only [updateSession, if_neg hne]
      exact List.mem_cons_self _ _
    · by_cases he : head.id = sid
      · simp only [updateSession, if_pos he]
        exact List.mem_cons_of_mem _ h1
      · simp only [updateSession, if_neg he]
        exact List.mem_cons_of_mem _ (ih h1)

/-! ## Duplicate login prevention (C2) -/

/-- C2: when a session B at the password step of a login flow submits
correct credentials for an account to which another session A (found first
by `getByUserId`) is already bound, B is refused with the
already-logged-in line as its only write, B returns to `CONNECTED` with
its identity fields unchanged (unset for a pre-authentication session),
B's login flow is destroyed, and A's registry record is untouched and
receives no write — A is not evicted or notified. -/
theorem c2_duplicate_login_refused (st : MudState) (b input : String) (now : Nat)
    (db : DbOracle) (sessB : Sess) (flow : AuthFlow) (x : Nat)
    (accountName : String) (A : Sess)
    (hsessB : findSession st.sessions b = some sessB)
    (hnosignup : mget st.signupFlows b = none)
    (hflow : mget st.loginFlows b = some flow)
    (hstep : flow.step = FlowStep.password)
    (hrate : mget st.failedLoginAttempts b = none)
    (hauth : db.authResult = some (x, accountName))
    (hA : getByUserId st.sessions x = some A)
    (hAne : A.id ≠ b) :
    authFlowCommand st b input now db =
      ⟨{ st with
          loginFlows := mdel st.loginFlows b,
          sessions := updateSession st.sessions b (fun s => { s with state := SessionState.connected }) },
        [(b, "This user is already logged in. Please disconnect the other session first.")],
        [DbCall.verifyCredential (flow.username.getD "") input]⟩ ∧
    findSession (authFlowCommand st b input now db).state.sessions b =
      some { sessB with state := SessionState.connected } ∧
    A ∈ (authFlowCommand st b input now db).state.sessions ∧
    (∀ m, (A.id, m) ∈ (authFlowCommand st b input now db).writes → False) := by
  rcases flow with ⟨fstep, fuser, fpass⟩
  simp only at hstep
  subst hstep
  have htr : findSession
      (updateSession st.sessions b (fun s => { s with state := SessionState.connected })) b =
      some { sessB with state := SessionState.connected } :=
    findSession_update_self _ rfl hsessB
  have hmain : authFlowCommand st b input now db =
      ⟨{ st with
          loginFlows := mdel st.loginFlows b,
          sessions := updateSession st.sessions b (fun s => { s with state := SessionState.connected }) },
        [(b, "This user is already logged in. Please disconnect the other session first.")],
        [DbCall.verifyCredential (fuser.getD "") input]⟩ := by
    simp only [authFlowCommand, hsessB, hnosignup, hflow]
    simp only [loginFlowStep, hrate, loginAuthenticate, hauth, hA]
    simp [hflow, hnosignup, trailingExpiredCheck, mget_mdel_self, htr, hAne]
  refine ⟨hmain, ?_, ?_, ?_⟩
  · rw [hmain]
    exact htr
  · rw [hmain]
    exact mem_updateSession_of_ne (getByUserId_mem hA).1 hAne
  · intro m hm
    rw [hmain] at hm
    simp at hm
    exact hAne hm.1

/-- Witness for C2: account 5 ("alice") bound to authenticated session
`"A"` in room 2; session `"B"` completes a login flow for the same account
with correct credentials. -/
theorem c2_duplicate_login_refused_witness :
    authFlowCommand
        ⟨[⟨"A", SessionState.authenticated, some 5, some "alice", some 2⟩,
          ⟨"B", SessionState.authenticating, none, none, none⟩],
         [], [("B", ⟨FlowStep.password, some "alice", none⟩)], []⟩
        "B" "Passw0rd" 0 ⟨Except.ok 0, some (5, "alice"), 2⟩ =
      ⟨{ (⟨[⟨"A", SessionState.authenticated, some 5, some "alice", some 2⟩,
            ⟨"B", SessionState.authenticating, none, none, none⟩],
          [], [("B", ⟨FlowStep.password, some "alice", none⟩)], []⟩ : MudState) with
          loginFlows := mdel [("B", (⟨FlowStep.password, some "alice", none⟩ : AuthFlow))] "B",
          sessions := updateSession
            [⟨"A", SessionState.authenticated, some 5, some "alice", some 2⟩,
             ⟨"B", SessionState.authenticating, none, none, none⟩] "B"
            (fun s => { s with state := SessionState.connected }) },
        [("B", "This user is already logged in. Please disconnect the other session first.")],
        [DbCall.verifyCredential "alice" "Passw0rd"]⟩ ∧
    findSession (authFlowCommand
        ⟨[⟨"A", SessionState.authenticated, some 5, some "alice", some 2⟩,
          ⟨"B", SessionState.authenticating, none, none, none⟩],
         [], [("B", ⟨FlowStep.password, some "alice", none⟩)], []⟩
        "B" "Passw0rd" 0 ⟨Except.ok 0, some (5, "alice"), 2⟩).state.sessions "B" =
      some ⟨"B", SessionState.connected, none, none, none⟩ ∧
    (⟨"A", SessionState.authenticated, some 5, some "alice", some 2⟩ : Sess) ∈
      (authFlowCommand
        ⟨[⟨"A", SessionState.authenticated, some 5, some "alice", some 2⟩,
          ⟨"B", SessionState.authenticating, none, none, none⟩],
         [], [("B", ⟨FlowStep.password, some "alice", none⟩)], []⟩
        "B" "Passw0rd" 0 ⟨Except.ok 0, some (5, "alice"), 2⟩).state.sessions ∧
    (∀ m, ("A", m) ∈ (authFlowCommand
        ⟨[⟨"A", SessionState.authenticated, some 5, some "alice", some 2⟩,
          ⟨"B", SessionState.authenticating, none, none, none⟩],
         [], [("B", ⟨FlowStep.password, some "alice", none⟩)], []⟩
        "B" "Passw0rd" 0 ⟨Except.ok 0, some (5, "alice"), 2⟩).writes → False) :=
  c2_duplicate_login_refused
    ⟨[⟨"A", SessionState.authenticated, some 5, some "alice", some 2⟩,
      ⟨"B", SessionState.authenticating, none, none, none⟩],
     [], [("B", ⟨FlowStep.password, some "alice", none⟩)], []⟩
    "B" "Passw0rd" 0 ⟨Except.ok 0, some (5, "alice"), 2⟩
    ⟨"B", SessionState.authenticating, none, none, none⟩
    ⟨FlowStep.password, some "alice", none⟩ 5 "alice"
    ⟨"A", SessionState.authenticated, some 5, some "alice", some 2⟩
    (by decide) (by decide) (by decide) (by decide) (by decide) rfl (by decide) (by decide)

theorem trailingExpiredCheck_dbCalls (r : HandlerResult) (sid : String) :
    (trailingExpiredCheck r sid).dbCalls = r.dbCalls := by
  unfold trailingExpiredCheck
  split
  · split
    · split <;> rfl
    · rfl
  · rfl

theorem trailingExpiredCheck_failed (r : HandlerResult) (sid : String) :
    (trailingExpiredCheck r sid).state.failedLoginAttempts =
      r.state.failedLoginAttempts := by
  unfold trailingExpiredCheck
  split
  · split
    · split <;> rfl
    · rfl
  · rfl

/-! ## Login rate limiting (C3) -/

/-- C3: with a failed-attempt record at the threshold, a `login` command
inside the 5-minute window (measured from the last failure) is refused
with the wait message, changes nothing and performs no persistence call;
once the window has elapsed the command deletes the record and starts a
fresh login flow (entering `AUTHENTICATING`), whose password step then
performs a real credential check (`userModel.authenticate`); a failed
check increments the record and stamps it with the failure time; any
successful login deletes the session's failed-attempt record — whether it
was absent, still below the threshold, or at the threshold with its
cooldown window elapsed (the only remaining case, an in-window record at
the threshold, is refused before the credential check and so cannot be a
successful login). -/
theorem c3_rate_limiting (st : MudState) (sid input : String) (now : Nat)
    (db : DbOracle) (a : Attempts) (sess : Sess) (flow : AuthFlow)
    (hsess : findSession st.sessions sid = some sess)
    (hstate : sess.state ≠ SessionState.authenticated) :
    ((mget st.failedLoginAttempts sid = some a → rateLimitThreshold ≤ a.count →
        now - a.lastAttempt < rateLimitWindowMs →
        loginCommand st sid now = ⟨st, [(sid, tooManyAttemptsMsg)], []⟩) ∧
     (mget st.failedLoginAttempts sid = some a → rateLimitThreshold ≤ a.count →
        rateLimitWindowMs ≤ now - a.lastAttempt →
        loginCommand st sid now =
          ⟨{ st with
              failedLoginAttempts := mdel st.failedLoginAttempts sid,
              loginFlows := mset st.loginFlows sid ⟨FlowStep.username, none, none⟩,
              sessions := updateSession st.sessions sid
                (fun s => { s with state := SessionState.authenticating }) },
            [(sid, "Username:")], []⟩)) ∧
    ((mget st.signupFlows sid = none → mget st.loginFlows sid = some flow →
        flow.step = FlowStep.password →
        mget st.failedLoginAttempts sid = none →
        (authFlowCommand st sid input now db).dbCalls.head? =
          some (DbCall.verifyCredential (flow.username.getD "") input)) ∧
     (mget st.signupFlows sid = none → mget st.loginFlows sid = some flow →
        flow.step = FlowStep.password →
        mget st.failedLoginAttempts sid = none →
        db.authResult = none →
        mget (authFlowCommand st sid input now db).state.failedLoginAttempts sid =
          some ⟨1, now⟩) ∧
     (∀ uid accountName,
        mget st.signupFlows sid = none → mget st.loginFlows sid = some flow →
        flow.step = FlowStep.password →
        (∀ a2 : Attempts, mget st.failedLoginAttempts sid = some a2 →
          rateLimitThreshold ≤ a2.count → rateLimitWindowMs ≤ now - a2.lastAttempt) →
        db.authResult = some (uid, accountName) →
        getByUserId st.sessions uid = none →
        mget (authFlowCommand st sid input now db).state.failedLoginAttempts sid =
          none)) := by
  refine ⟨⟨?_, ?_⟩, ?_, ?_, ?_⟩
  · intro hrec hcount hlt
    simp [loginCommand, hsess, hstate, hrec, hcount, hlt]
  · intro hrec hcount hge
    have hnlt : ¬ (now - a.lastAttempt < rateLimitWindowMs) := by omega
    simp [loginCommand, hsess, hstate, hrec, hcount, hnlt]
  · intro hnos hflow hstep hrate
    rcases flow with ⟨fstep, fuser, fpass⟩
    simp only at hstep
    subst hstep
    simp only [authFlowCommand, hsess, hnos, hflow]
    rw [if_neg (by simp)]
    simp only [loginFlowStep, hrate]
    rw [trailingExpiredCheck_dbCalls]
    cases ha : db.authResult with
    | none => simp [loginAuthenticate, ha]
    | some p =>
      rcases p with ⟨uid, nm⟩
      cases hg : getByUserId st.sessions uid with
      | none => simp [loginAuthenticate, ha, hg, loginFinish]
      | some existing =>
        by_cases hid : existing.id = sid
        · simp [loginAuthenticate, ha, hg, hid, loginFinish]
        · simp [loginAuthenticate, ha, hg, hid, loginFinish]
  · intro hnos hflow hstep hrate ha
    rcases flow with ⟨fstep, fuser, fpass⟩
    simp only at hstep
    subst hstep
    simp only [authFlowCommand, hsess, hnos, hflow]
    rw [if_neg (by simp)]
    simp only [loginFlowStep, hrate]
    rw [trailingExpiredCheck_failed]
    simp [loginAuthenticate, ha, hrate, mget_mset_self]
  · intro uid accountName hnos hflow hstep hcond ha hg
    rcases flow with ⟨fstep, fuser, fpass⟩
    simp only at hstep
    subst hstep
    simp only [authFlowCommand, hsess, hnos, hflow]
    rw [if_neg (by simp), trailingExpiredCheck_failed]
    cases hrec : mget st.failedLoginAttempts sid with
    | none =>
      simp only [loginFlowStep, hrec]
      simp [loginAuthenticate, ha, hg, loginFinish, mget_mdel_self]
    | some a2 =>
      simp only [loginFlowStep, hrec]
      by_cases hth : rateLimitThreshold ≤ a2.count
      · have hnlt : ¬(now - a2.lastAttempt < rateLimitWindowMs) := by
          have := hcond a2 hrec hth
          omega
        rw [if_pos hth, if_neg hnlt]
        simp [loginAuthenticate, ha, hg, loginFinish, mget_mdel_self]
      · rw [if_neg hth]
        simp [loginAuthenticate, ha, hg, loginFinish, mget_mdel_self]

/-- Witness for C3: session `"A"` with a count-3 record stamped at 1000ms —
refused at 2000ms, admitted at 301000ms; then a password-step submission
with no record performs the credential check, a failed one records
`⟨1, 5000⟩`, and a successful one clears the existing count-2 record. -/
theorem c3_rate_limiting_witness :
    (loginCommand
        ⟨[⟨"A", SessionState.connected, none, none, none⟩], [], [], [("A", ⟨3, 1000⟩)]⟩
        "A" 2000 =
      ⟨⟨[⟨"A", SessionState.connected, none, none, none⟩], [], [], [("A", ⟨3, 1000⟩)]⟩,
        [("A", tooManyAttemptsMsg)], []⟩) ∧
    (loginCommand
        ⟨[⟨"A", SessionState.connected, none, none, none⟩], [], [], [("A", ⟨3, 1000⟩)]⟩
        "A" 301000 =
      ⟨{ (⟨[⟨"A", SessionState.connected, none, none, none⟩], [], [], [("A", ⟨3, 1000⟩)]⟩ : MudState) with
          failedLoginAttempts := mdel [("A", (⟨3, 1000⟩ : Attempts))] "A",
          loginFlows := mset [] "A" ⟨FlowStep.username, none, none⟩,
          sessions := updateSession [⟨"A", SessionState.connected, none, none, none⟩] "A"
            (fun s => { s with state := SessionState.authenticating }) },
        [("A", "Username:")], []⟩) ∧
    ((authFlowCommand
        ⟨[⟨"A", SessionState.authenticating, none, none, none⟩], [],
         [("A", ⟨FlowStep.password, some "bob", none⟩)], []⟩
        "A" "pw" 5000 ⟨Except.ok 0, none, 1⟩).dbCalls.head? =
      some (DbCall.verifyCredential "bob" "pw")) ∧
    (mget (authFlowCommand
        ⟨[⟨"A", SessionState.authenticating, none, none, none⟩], [],
         [("A", ⟨FlowStep.password, some "bob", none⟩)], []⟩
        "A" "pw" 5000 ⟨Except.ok 0, none, 1⟩).state.failedLoginAttempts "A" =
      some ⟨1, 5000⟩) ∧
    (mget (authFlowCommand
        ⟨[⟨"A", SessionState.authenticating, none, none, none⟩], [],
         [("A", ⟨FlowStep.password, some "bob", none⟩)], [("A", ⟨2, 100⟩)]⟩
        "A" "pw" 5000 ⟨Except.ok 0, some (9, "bob"), 1⟩).state.failedLoginAttempts "A" =
      none) := by
  refine ⟨?_, ?_, ?_, ?_, ?_⟩
  · exact ((c3_rate_limiting
      ⟨[⟨"A", SessionState.connected, none, none, none⟩], [], [], [("A", ⟨3, 1000⟩)]⟩
      "A" "x" 2000 ⟨Except.ok 0, none, 1⟩ ⟨3, 1000⟩
      ⟨"A", SessionState.connected, none, none, none⟩ ⟨FlowStep.username, none, none⟩
      rfl (by decide)).1).1 rfl (by decide) (by decide)
  · exact ((c3_rate_limiting
      ⟨[⟨"A", SessionState.connected, none, none, none⟩], [], [], [("A", ⟨3, 1000⟩)]⟩
      "A" "x" 301000 ⟨Except.ok 0, none, 1⟩ ⟨3, 1000⟩
      ⟨"A", SessionState.connected, none, none, none⟩ ⟨FlowStep.username, none, none⟩
      rfl (by decide)).1).2 rfl (by decide) (by decide)
  · exact ((c3_rate_limiting
      ⟨[⟨"A", SessionState.authenticating, none, none, none⟩], [],
       [("A", ⟨FlowStep.password, some "bob", none⟩)], []⟩
      "A" "pw" 5000 ⟨Except.ok 0, none, 1⟩ ⟨0, 0⟩
      ⟨"A", SessionState.authenticating, none, none, none⟩
      ⟨FlowStep.password, some "bob", none⟩
      rfl (by decide)).2).1 rfl rfl rfl rfl
  · exact (((c3_rate_limiting
      ⟨[⟨"A", SessionState.authenticating, none, none, none⟩], [],
       [("A", ⟨FlowStep.password, some "bob", none⟩)], []⟩
      "A" "pw" 5000 ⟨Except.ok 0, none, 1⟩ ⟨0, 0⟩
      ⟨"A", SessionState.authenticating, none, none, none⟩
      ⟨FlowStep.password, some "bob", none⟩
      rfl (by decide)).2).2).1 rfl rfl rfl rfl rfl
  · exact (((c3_rate_limiting
      ⟨[⟨"A", SessionState.authenticating, none, none, none⟩], [],
       [("A", ⟨FlowStep.password, some "bob", none⟩)], [("A", ⟨2, 100⟩)]⟩
      "A" "pw" 5000 ⟨Except.ok 0, some (9, "bob"), 1⟩ ⟨2, 100⟩
      ⟨"A", SessionState.authenticating, none, none, none⟩
      ⟨FlowStep.password, some "bob", none⟩
      rfl (by decide)).2).2).2 9 "bob" rfl rfl rfl
      (by
        intro a2 ha2 hth
        cases (show some (⟨2, 100⟩ : Attempts) = some a2 from ha2)
        exact absurd hth (by decide))
      rfl rfl

theorem mem_broadcastToRoom_of {ss : List Sess} {rid : Nat} {msg : String}
    {sid : String} {o : Sess} (hmem : o ∈ ss) (hroom : o.roomId = some rid)
    (huid : o.userId.isSome) (hne : o.id ≠ sid) :
    (o.id, msg) ∈ broadcastToRoom ss rid msg (some sid) := by
  simp only [broadcastToRoom, List.mem_map]
  refine ⟨o, ?_, rfl⟩
  simp only [List.mem_filter, mem_getInRoom]
  refine ⟨⟨hmem, hroom, huid⟩, ?_⟩
  simp [hne]

theorem not_mem_broadcastToRoom_self {ss : List Sess} {rid : Nat} {msg m : String}
    {sid : String} (h : (sid, m) ∈ broadcastToRoom ss rid msg (some sid)) : False := by
  simp only [broadcastToRoom, List.mem_map, List.mem_filter] at h
  rcases h with ⟨s, ⟨_, hs⟩, heq⟩
  have : s.id = sid := congrArg Prod.fst heq
  simp [this] at hs

/-! ## Movement (C5) -/

/-- C5: an `AUTHENTICATED` session in room `r1`, where `r1` has a `north`
exit to `r2`, issuing `move north`: the mover's `roomId` becomes `r2` (all
other fields unchanged); every other presence-set member of `r1` receives
the `"goes north."` departure line and every other presence-set member of
`r2` the `"arrives from the south."` arrival line; the writes are exactly
the two broadcasts (both excluding the mover — no broadcast write targets
the mover) followed by the mover's own `"You go north."` line and room
re-render; when `r1` has no north exit, the refusal line is the only write
and the whole state is unchanged. -/
theorem c5_move_north (w : World) (st : MudState) (sid : String)
    (sess : Sess) (r1 : Nat) (uname : String)
    (hsess : findSession st.sessions sid = some sess)
    (hstate : sess.state = SessionState.authenticated)
    (hroom : sess.roomId = some r1)
    (hr1 : r1 ≠ 0)
    (huser : sess.username = some uname) :
    (∀ exitRow destRoom,
      getExitByDirection w r1 "north" = some exitRow →
      findRoomById w exitRow.toRoomId = some destRoom →
      findSession (moveCommand w st sid ["north"]).state.sessions sid =
        some { sess with roomId := some exitRow.toRoomId } ∧
      (∀ o ∈ st.sessions, o.id ≠ sid → o.userId.isSome → o.roomId = some r1 →
        (o.id, uname ++ " goes north.") ∈ (moveCommand w st sid ["north"]).writes) ∧
      (∀ o ∈ st.sessions, o.id ≠ sid → o.userId.isSome →
        o.roomId = some exitRow.toRoomId →
        (o.id, uname ++ " arrives from the south.") ∈
          (moveCommand w st sid ["north"]).writes) ∧
      (moveCommand w st sid ["north"]).writes =
        broadcastToRoom st.sessions r1 (uname ++ " goes north.") (some sid) ++
        broadcastToRoom
          (updateSession st.sessions sid (fun s => { s with roomId := some exitRow.toRoomId }))
          exitRow.toRoomId (uname ++ " arrives from the south.") (some sid) ++
        [(sid, "\r\nYou go north.\r\n")] ++
        (lookCommand w
          { st with sessions := updateSession st.sessions sid (fun s => { s with roomId := some exitRow.toRoomId }) } sid).writes ∧
      (∀ m, (sid, m) ∈
          broadcastToRoom st.sessions r1 (uname ++ " goes north.") (some sid) ++
          broadcastToRoom
            (updateSession st.sessions sid (fun s => { s with roomId := some exitRow.toRoomId }))
            exitRow.toRoomId (uname ++ " arrives from the south.") (some sid) → False)) ∧
    (getExitByDirection w r1 "north" = none →
      moveCommand w st sid ["north"] =
        ⟨st, [(sid, "You cannot go north from here.")], []⟩) := by
  have hnorm : normalizeDirection "north" = "north" := by decide
  have hopp : getDirectionOpposite "north" = "south" := by decide
  have hcat1 : uname ++ " goes " ++ "north" ++ "." = uname ++ " goes north." := by
    rw [String.append_assoc, String.append_assoc]
    congr 1
  have hcat2 : uname ++ " arrives from the " ++ "south" ++ "." =
      uname ++ " arrives from the south." := by
    rw [String.append_assoc, String.append_assoc]
    congr 1
  constructor
  · intro exitRow destRoom hexit hdest
    have hmoved : moveCommand w st sid ["north"] =
        ⟨(lookCommand w
            { st with sessions := updateSession st.sessions sid (fun s => { s with roomId := some exitRow.toRoomId }) } sid).state,
          broadcastToRoom st.sessions r1 (uname ++ " goes north.") (some sid) ++
            broadcastToRoom
              (updateSession st.sessions sid (fun s => { s with roomId := some exitRow.toRoomId }))
              exitRow.toRoomId (uname ++ " arrives from the south.") (some sid) ++
            [(sid, "\r\nYou go north.\r\n")] ++
            (lookCommand w
              { st with sessions := updateSession st.sessions sid (fun s => { s with roomId := some exitRow.toRoomId }) } sid).writes,
          (match sess.userId with
            | some uid => [DbCall.updateRoomCall uid exitRow.toRoomId]
            | none => []) ++
            (lookCommand w
              { st with sessions := updateSession st.sessions sid (fun s => { s with roomId := some exitRow.toRoomId }) } sid).dbCalls⟩ := by
      simp only [moveCommand, hsess, hstate, hroom]
      simp [hr1, hnorm, hexit, hdest, hopp, huser, hcat1, hcat2]
    have hlookst : (lookCommand w
        { st with sessions := updateSession st.sessions sid (fun s => { s with roomId := some exitRow.toRoomId }) } sid).state.sessions =
        updateSession st.sessions sid (fun s => { s with roomId := some exitRow.toRoomId }) := by
      unfold lookCommand
      split
      · rfl
      · split
        · rfl
        · split
          · rfl
          · split
            · rfl
            · split
              · rfl
              · rfl
    refine ⟨?_, ?_, ?_, ?_, ?_⟩
    · rw [hmoved]
      simp only [hlookst]
      exact findSession_update_self _ rfl hsess
    · intro o hmem hne huid hor
      rw [hmoved]
      simp only [List.mem_append]
      exact Or.inl (Or.inl (Or.inl (mem_broadcastToRoom_of hmem hor huid hne)))
    · intro o hmem hne huid hor
      rw [hmoved]
      simp only [List.mem_append]
      refine Or.inl (Or.inl (Or.inr (mem_broadcastToRoom_of ?_ ?_ huid hne)))
      · exact mem_updateSession_of_ne hmem hne
      · exact hor
    · rw [hmoved]
    · intro m hm
      rcases List.mem_append.mp hm with h1 | h1
      · exact not_mem_broadcastToRoom_self h1
      · exact not_mem_broadcastToRoom_self h1
  · intro hnoexit
    simp only [moveCommand, hsess, hstate, hroom]
    simp [hr1, hnorm, hnoexit]

/-- Witness for C5: "alice" (session `"M"`) moves north from room 1 to
room 2 while "bob" is in room 1 and "carol" in room 2; in a world without
the exit the same command is refused. -/
theorem c5_move_north_witness :
    (findSession (moveCommand
        ⟨[⟨1, "Alamo Plaza", "d1"⟩, ⟨2, "River Walk", "d2"⟩], [⟨1, 2, "north"⟩], []⟩
        ⟨[⟨"M", SessionState.authenticated, some 1, some "alice", some 1⟩,
          ⟨"B", SessionState.authenticated, some 2, some "bob", some 1⟩,
          ⟨"C", SessionState.authenticated, some 3, some "carol", some 2⟩], [], [], []⟩
        "M" ["north"]).state.sessions "M" =
      some ⟨"M", SessionState.authenticated, some 1, some "alice", some 2⟩) ∧
    (("B", "alice goes north.") ∈ (moveCommand
        ⟨[⟨1, "Alamo Plaza", "d1"⟩, ⟨2, "River Walk", "d2"⟩], [⟨1, 2, "north"⟩], []⟩
        ⟨[⟨"M", SessionState.authenticated, some 1, some "alice", some 1⟩,
          ⟨"B", SessionState.authenticated, some 2, some "bob", some 1⟩,
          ⟨"C", SessionState.authenticated, some 3, some "carol", some 2⟩], [], [], []⟩
        "M" ["north"]).writes) ∧
    (("C", "alice arrives from the south.") ∈ (moveCommand
        ⟨[⟨1, "Alamo Plaza", "d1"⟩, ⟨2, "River Walk", "d2"⟩], [⟨1, 2, "north"⟩], []⟩
        ⟨[⟨"M", SessionState.authenticated, some 1, some "alice", some 1⟩,
          ⟨"B", SessionState.authenticated, some 2, some "bob", some 1⟩,
          ⟨"C", SessionState.authenticated, some 3, some "carol", some 2⟩], [], [], []⟩
        "M" ["north"]).writes) ∧
    (moveCommand
        ⟨[⟨1, "Alamo Plaza", "d1"⟩, ⟨2, "River Walk", "d2"⟩], [], []⟩
        ⟨[⟨"M", SessionState.authenticated, some 1, some "alice", some 1⟩,
          ⟨"B", SessionState.authenticated, some 2, some "bob", some 1⟩,
          ⟨"C", SessionState.authenticated, some 3, some "carol", some 2⟩], [], [], []⟩
        "M" ["north"] =
      ⟨⟨[⟨"M", SessionState.authenticated, some 1, some "alice", some 1⟩,
         ⟨"B", SessionState.authenticated, some 2, some "bob", some 1⟩,
         ⟨"C", SessionState.authenticated, some 3, some "carol", some 2⟩], [], [], []⟩,
        [("M", "You cannot go north from here.")], []⟩) := by
  refine ⟨?_, ?_, ?_, ?_⟩
  · exact ((c5_move_north
      ⟨[⟨1, "Alamo Plaza", "d1"⟩, ⟨2, "River Walk", "d2"⟩], [⟨1, 2, "north"⟩], []⟩
      ⟨[⟨"M", SessionState.authenticated, some 1, some "alice", some 1⟩,
        ⟨"B", SessionState.authenticated, some 2, some "bob", some 1⟩,
        ⟨"C", SessionState.authenticated, some 3, some "carol", some 2⟩], [], [], []⟩
      "M" ⟨"M", SessionState.authenticated, some 1, some "alice", some 1⟩ 1 "alice"
      rfl rfl rfl (by decide) rfl).1 ⟨1, 2, "north"⟩ ⟨2, "River Walk", "d2"⟩
      (by decide) rfl).1
  · exact (((c5_move_north
      ⟨[⟨1, "Alamo Plaza", "d1"⟩, ⟨2, "River Walk", "d2"⟩], [⟨1, 2, "north"⟩], []⟩
      ⟨[⟨"M", SessionState.authenticated, some 1, some "alice", some 1⟩,
        ⟨"B", SessionState.authenticated, some 2, some "bob", some 1⟩,
        ⟨"C", SessionState.authenticated, some 3, some "carol", some 2⟩], [], [], []⟩
      "M" ⟨"M", SessionState.authenticated, some 1, some "alice", some 1⟩ 1 "alice"
      rfl rfl rfl (by decide) rfl).1 ⟨1, 2, "north"⟩ ⟨2, "River Walk", "d2"⟩
      (by decide) rfl).2.1
      ⟨"B", SessionState.authenticated, some 2, some "bob", some 1⟩
      (by decide) (by decide) (by decide) rfl)
  · exact (((c5_move_north
      ⟨[⟨1, "Alamo Plaza", "d1"⟩, ⟨2, "River Walk", "d2"⟩], [⟨1, 2, "north"⟩], []⟩
      ⟨[⟨"M", SessionState.authenticated, some 1, some "alice", some 1⟩,
        ⟨"B", SessionState.authenticated, some 2, some "bob", some 1⟩,
        ⟨"C", SessionState.authenticated, some 3, some "carol", some 2⟩], [], [], []⟩
      "M" ⟨"M", SessionState.authenticated, some 1, some "alice", some 1⟩ 1 "alice"
      rfl rfl rfl (by decide) rfl).1 ⟨1, 2, "north"⟩ ⟨2, "River Walk", "d2"⟩
      (by decide) rfl).2.2.1
      ⟨"C", SessionState.authenticated, some 3, some "carol", some 2⟩
      (by decide) (by decide) (by decide) rfl)
  · exact (c5_move_north
      ⟨[⟨1, "Alamo Plaza", "d1"⟩, ⟨2, "River Walk", "d2"⟩], [], []⟩
      ⟨[⟨"M", SessionState.authenticated, some 1, some "alice", some 1⟩,
        ⟨"B", SessionState.authenticated, some 2, some "bob", some 1⟩,
        ⟨"C", SessionState.authenticated, some 3, some "carol", some 2⟩], [], [], []⟩
      "M" ⟨"M", SessionState.authenticated, some 1, some "alice", some 1⟩ 1 "alice"
      rfl rfl rfl (by decide) rfl).2 rfl

theorem findSession_addSession_self (ss : List Sess) (s : Sess) :
    findSession (addSession ss s) s.id = some s := by
  induction ss with
  | nil => simp [addSession, findSession]
  | cons head rest ih =>
    by_cases he : head.id = s.id
    · simp [addSession, he, findSession]
    · simp [addSession, he, findSession, ih]

theorem findSession_addSession_ne {ss : List Sess} {s : Sess} {sid2 : String}
    (hne : s.id ≠ sid2) : findSession (addSession ss s) sid2 = findSession ss sid2 := by
  induction ss with
  | nil => simp [addSession, findSession, hne]
  | cons head rest ih =>
    by_cases he : head.id = s.id
    · simp [addSession, he, findSession, hne]
    · simp [addSession, he, findSession, ih]

theorem updateSession_not_found {ss : List Sess} {sid : String} {f : Sess → Sess}
    (h : findSession ss sid = none) : updateSession ss sid f = ss := by
  induction ss with
  | nil => simp [updateSession]
  | cons head rest ih =>
    by_cases he : head.id = sid
    · simp [findSession, he] at h
    · simp only [findSession, if_neg he] at h
      simp [updateSession, he, ih h]

theorem findSession_removeSession_ne {ss : List Sess} {sid sid2 : String}
    (hne : sid2 ≠ sid) :
    findSession (removeSession ss sid) sid2 = findSession ss sid2 := by
  induction ss with
  | nil => simp [removeSession]
  | cons head rest ih =>
    by_cases he : head.id = sid
    · have h2 : ¬ head.id = sid2 := by rw [he]; exact fun hx => hne hx.symm
      simp only [removeSession, if_pos he]
      rw [ih]
      simp [findSession, h2]
    · simp only [removeSession, if_neg he]
      simp only [findSession]
      by_cases h4 : head.id = sid2
      · simp [h4]
      · simp [h4, ih]

theorem lookCommand_state (w : World) (st : MudState) (sid : String) :
    (lookCommand w st sid).state = st := by
  unfold lookCommand
  split
  · rfl
  · split
    · rfl
    · split
      · rfl
      · split
        · rfl
        · split
          · rfl
          · rfl

/-- States of sessions are untouched by an update that preserves both the
id and the state field. -/
theorem sessionStateOf_update_preserving {ss : List Sess} {sid : String}
    {f : Sess → Sess} (hid : ∀ s, (f s).id = s.id)
    (hst : ∀ s, (f s).state = s.state) (flows1 : List (String × AuthFlow))
    (flows2 : List (String × AuthFlow)) (att : List (String × Attempts))
    (sid2 : String) :
    sessionStateOf ⟨updateSession ss sid f, flows1, flows2, att⟩ sid2 =
      sessionStateOf ⟨ss, flows1, flows2, att⟩ sid2 := by
  by_cases he : sid2 = sid
  · subst he
    cases hfind : findSession ss sid2 with
    | none => simp [sessionStateOf, updateSession_not_found hfind, hfind]
    | some s =>
      have := findSession_update_self f (hid s) hfind
      simp [sessionStateOf, this, hfind, hst]
  · simp [sessionStateOf, findSession_update_ne f hid he]

/-- Reduction of `flowInv` to frame conditions away from `sid` plus the
condition at `sid`. -/
theorem flowInv_of_parts (st st2 : MudState) (sid : String)
    (hinv : flowInv st)
    (hsig : ∀ sid2, sid2 ≠ sid → mget st2.signupFlows sid2 = mget st.signupFlows sid2)
    (hlog : ∀ sid2, sid2 ≠ sid → mget st2.loginFlows sid2 = mget st.loginFlows sid2)
    (hstate : ∀ sid2, sid2 ≠ sid → sessionStateOf st2 sid2 = sessionStateOf st sid2)
    (hsid : ((mget st2.signupFlows sid ≠ none ∨ mget st2.loginFlows sid ≠ none) →
        sessionStateOf st2 sid = some SessionState.authenticating) ∧
      ¬(mget st2.signupFlows sid ≠ none ∧ mget st2.loginFlows sid ≠ none)) :
    flowInv st2 := by
  intro sid2
  by_cases he : sid2 = sid
  · subst he
    exact hsid
  · rw [hsig sid2 he, hlog sid2 he, hstate sid2 he]
    exact hinv sid2

theorem findSession_update_map_state {ss : List Sess} {sid : String} (f : Sess → Sess)
    (hid : ∀ s, (f s).id = s.id) (hst : ∀ s, (f s).state = s.state) (sid2 : String) :
    (findSession (updateSession ss sid f) sid2).map Sess.state =
      (findSession ss sid2).map Sess.state := by
  by_cases he : sid2 = sid
  · subst he
    cases hfind : findSession ss sid2 with
    | none => simp [updateSession_not_found hfind, hfind]
    | some s =>
      have := findSession_update_self f (hid s) hfind
      simp [this, hfind, hst]
  · simp [findSession_update_ne f hid he]

theorem flowInv_signupCommand (st : MudState) (sid : String) (hinv : flowInv st)
    (hg : sessionStateOf st sid ≠ some SessionState.authenticating) :
    flowInv (signupCommand st sid).state := by
  unfold signupCommand
  cases hfind : findSession st.sessions sid with
  | none => exact hinv
  | some sess =>
    by_cases hauth : sess.state = SessionState.authenticated
    · simp only [if_pos hauth]
      exact hinv
    · simp only [if_neg hauth]
      apply flowInv_of_parts st _ sid hinv
      · intro sid2 hne
        exact mget_mset_ne _ _ hne
      · intro sid2 _
        rfl
      · intro sid2 hne
        simp only [sessionStateOf]
        rw [findSession_update_ne (fun s => { s with state := SessionState.authenticating })
          (fun s => rfl) hne]
      · constructor
        · intro _
          simp only [sessionStateOf]
          have := findSession_update_self
            (fun s => { s with state := SessionState.authenticating }) rfl hfind
          simp [this]
        · rintro ⟨_, hl⟩
          have := (hinv sid).1 (Or.inr hl)
          exact hg this

theorem flowInv_loginCommand (st : MudState) (sid : String) (now : Nat)
    (hinv : flowInv st) (hg : sessionStateOf st sid ≠ some SessionState.authenticating) :
    flowInv (loginCommand st sid now).state := by
  have hsignone : mget st.signupFlows sid = none := by
    cases hs : mget st.signupFlows sid with
    | none => rfl
    | some f =>
      exact absurd ((hinv sid).1 (Or.inl (by simp [hs]))) hg
  unfold loginCommand
  cases hfind : findSession st.sessions sid with
  | none => exact hinv
  | some sess =>
    by_cases hauth : sess.state = SessionState.authenticated
    · simp only [if_pos hauth]
      exact hinv
    · simp only [if_neg hauth]
      have hproceed : ∀ st1 : MudState,
          st1.signupFlows = st.signupFlows → st1.loginFlows = st.loginFlows →
          st1.sessions = st.sessions →
          flowInv ⟨updateSession st1.sessions sid
              (fun s => { s with state := SessionState.authenticating }),
            st1.signupFlows, mset st1.loginFlows sid ⟨FlowStep.username, none, none⟩,
            st1.failedLoginAttempts⟩ := by
        intro st1 h1 h2 h3
        rw [h1, h2, h3]
        apply flowInv_of_parts st _ sid hinv
        · intro sid2 _
          rfl
        · intro sid2 hne
          exact mget_mset_ne _ _ hne
        · intro sid2 hne
          simp only [sessionStateOf]
          rw [findSession_update_ne (fun s => { s with state := SessionState.authenticating })
          (fun s => rfl) hne]
        · constructor
          · intro _
            simp only [sessionStateOf]
            have := findSession_update_self
              (fun s => { s with state := SessionState.authenticating }) rfl hfind
            simp [this]
          · rintro ⟨hs, _⟩
            exact hs hsignone
      cases hrec : mget st.failedLoginAttempts sid with
      | none =>
        simp only []
        exact hproceed st rfl rfl rfl
      | some attempts =>
        by_cases hcount : rateLimitThreshold ≤ attempts.count
        · by_cases hlt : now - attempts.lastAttempt < rateLimitWindowMs
          · simp only [if_pos hcount, if_pos hlt]
            exact hinv
          · simp only [if_pos hcount, if_neg hlt]
            exact hproceed { st with failedLoginAttempts := mdel st.failedLoginAttempts sid }
              rfl rfl rfl
        · simp only [if_neg hcount]
          exact hproceed st rfl rfl rfl

theorem flowInv_trailingExpiredCheck (r : HandlerResult) (sid : String)
    (hinv : flowInv r.state) : flowInv (trailingExpiredCheck r sid).state := by
  unfold trailingExpiredCheck
  split
  · rename_i hflows
    split
    · rename_i s2 hfind
      split
      · apply flowInv_of_parts r.state _ sid hinv
        · intro sid2 _
          rfl
        · intro sid2 _
          rfl
        · intro sid2 hne
          simp only [sessionStateOf]
          rw [findSession_update_ne (fun s => { s with state := SessionState.connected })
            (fun s => rfl) hne]
        · refine ⟨fun hany => ?_, fun hboth => ?_⟩
          · rcases hany with hs | hs <;> exact absurd (by simpa using hflows.1) (by simp_all)
          · exact hboth.1 hflows.1
      · exact hinv
    · exact hinv
  · exact hinv

theorem flowInv_signupFlowStep (st : MudState) (sid input : String) (sess : Sess)
    (flow : AuthFlow) (db : DbOracle) (hinv : flowInv st)
    (hsess : findSession st.sessions sid = some sess)
    (hflow : mget st.signupFlows sid = some flow) :
    flowInv (signupFlowStep st sid input sess flow db).state := by
  have hlognone : mget st.loginFlows sid = none := by
    cases hl : mget st.loginFlows sid with
    | none => rfl
    | some f2 =>
      exact absurd ⟨by simp [hflow], by simp [hl]⟩ (hinv sid).2
  have hauth : sessionStateOf st sid = some SessionState.authenticating :=
    (hinv sid).1 (Or.inl (by simp [hflow]))
  have hsid : sess.id = sid := (findSession_mem hsess).2
  have hmset : ∀ flow2 : AuthFlow,
      flowInv { st with signupFlows := mset st.signupFlows sid flow2 } := by
    intro flow2
    apply flowInv_of_parts st _ sid hinv
    · intro sid2 hne
      exact mget_mset_ne _ _ hne
    · intro sid2 _
      rfl
    · intro sid2 _
      rfl
    · refine ⟨fun _ => hauth, fun hboth => ?_⟩
      exact hboth.2 hlognone
  rcases flow with ⟨fstep, fuser, fpass⟩
  cases fstep with
  | username =>
    dsimp only [signupFlowStep]
    split
    · exact hinv
    · split
      · exact hinv
      · exact hmset _
  | password =>
    dsimp only [signupFlowStep]
    split
    · exact hinv
    · split
      · exact hinv
      · exact hmset _
  | confirmPassword =>
    dsimp only [signupFlowStep]
    split
    · exact hmset _
    · cases hc : db.createResult with
      | ok uid =>
        dsimp only
        apply flowInv_of_parts st _ sid hinv
        · intro sid2 hne
          exact mget_mdel_ne _ hne
        · intro sid2 _
          rfl
        · intro sid2 hne
          simp only [sessionStateOf]
          rw [findSession_addSession_ne (by simpa [hsid] using hne.symm)]
        · refine ⟨fun hany => ?_, fun hboth => ?_⟩
          · rcases hany with hs | hs
            · exact absurd (mget_mdel_self st.signupFlows sid) hs
            · exact absurd hlognone hs
          · exact hboth.2 hlognone
      | error emsg =>
        dsimp only
        apply flowInv_of_parts st _ sid hinv
        · intro sid2 hne
          exact mget_mdel_ne _ hne
        · intro sid2 _
          rfl
        · intro sid2 hne
          simp only [sessionStateOf]
          rw [findSession_update_ne (fun s => { s with state := SessionState.connected })
            (fun s => rfl) hne]
        · refine ⟨fun hany => ?_, fun hboth => ?_⟩
          · rcases hany with hs | hs
            · exact absurd (mget_mdel_self st.signupFlows sid) hs
            · exact absurd hlognone hs
          · exact hboth.2 hlognone

theorem flowInv_loginFinish (st1 : MudState) (sid : String) (sess : Sess)
    (uname input : String) (uid : Nat) (accountName : String) (db : DbOracle)
    (hinv : flowInv st1) (hsid : sess.id = sid)
    (hsignone : mget st1.signupFlows sid = none) :
    flowInv (loginFinish st1 sid sess uname input uid accountName db).state := by
  unfold loginFinish
  dsimp only
  apply flowInv_of_parts st1 _ sid hinv
  · intro sid2 _
    rfl
  · intro sid2 hne
    exact mget_mdel_ne _ hne
  · intro sid2 hne
    simp only [sessionStateOf]
    rw [findSession_addSession_ne (by simpa [hsid] using hne.symm)]
  · refine ⟨fun hany => ?_, fun hboth => ?_⟩
    · rcases hany with hs | hs
      · exact absurd hsignone hs
      · exact absurd (mget_mdel_self st1.loginFlows sid) hs
    · exact hboth.1 hsignone

theorem flowInv_loginAuthenticate (st1 : MudState) (sid input : String) (now : Nat)
    (sess : Sess) (flow : AuthFlow) (db : DbOracle)
    (hinv : flowInv st1) (hsid : sess.id = sid)
    (hsignone : mget st1.signupFlows sid = none) :
    flowInv (loginAuthenticate st1 sid input now sess flow db).state := by
  have hrefuse : flowInv
      { st1 with
        loginFlows := mdel st1.loginFlows sid,
        sessions := updateSession st1.sessions sid (fun s => { s with state := SessionState.connected }) } := by
    apply flowInv_of_parts st1 _ sid hinv
    · intro sid2 _
      rfl
    · intro sid2 hne
      exact mget_mdel_ne _ hne
    · intro sid2 hne
      simp only [sessionStateOf]
      rw [findSession_update_ne (fun s => { s with state := SessionState.connected })
        (fun s => rfl) hne]
    · refine ⟨fun hany => ?_, fun hboth => ?_⟩
      · rcases hany with hs | hs
        · exact absurd hsignone hs
        · exact absurd (mget_mdel_self st1.loginFlows sid) hs
      · exact hboth.1 hsignone
  unfold loginAuthenticate
  cases ha : db.authResult with
  | none =>
    dsimp only
    apply flowInv_of_parts st1 _ sid hinv
    · intro sid2 _
      rfl
    · intro sid2 hne
      exact mget_mdel_ne _ hne
    · intro sid2 hne
      simp only [sessionStateOf]
      rw [findSession_update_ne (fun s => { s with state := SessionState.connected })
        (fun s => rfl) hne]
    · refine ⟨fun hany => ?_, fun hboth => ?_⟩
      · rcases hany with hs | hs
        · exact absurd hsignone hs
        · exact absurd (mget_mdel_self st1.loginFlows sid) hs
      · exact hboth.1 hsignone
  | some p =>
    rcases p with ⟨uid, accountName⟩
    dsimp only
    cases hg : getByUserId st1.sessions uid with
    | some existing =>
      dsimp only
      split
      · exact hrefuse
      · exact flowInv_loginFinish st1 sid sess (flow.username.getD "") input uid
          accountName db hinv hsid hsignone
    | none =>
      dsimp only
      exact flowInv_loginFinish st1 sid sess (flow.username.getD "") input uid
        accountName db hinv hsid hsignone

theorem flowInv_loginFlowStep (st : MudState) (sid input : String) (now : Nat)
    (sess : Sess) (flow : AuthFlow) (db : DbOracle)
    (hinv : flowInv st)
    (hsess : findSession st.sessions sid = some sess)
    (hflow : mget st.loginFlows sid = some flow)
    (hsignone : mget st.signupFlows sid = none) :
    flowInv (loginFlowStep st sid input now sess flow db).state := by
  have hauth : sessionStateOf st sid = some SessionState.authenticating :=
    (hinv sid).1 (Or.inr (by simp [hflow]))
  have hsid : sess.id = sid := (findSession_mem hsess).2
  rcases flow with ⟨fstep, fuser, fpass⟩
  cases fstep with
  | username =>
    dsimp only [loginFlowStep]
    apply flowInv_of_parts st _ sid hinv
    · intro sid2 _
      rfl
    · intro sid2 hne
      exact mget_mset_ne _ _ hne
    · intro sid2 _
      rfl
    · refine ⟨fun _ => hauth, fun hboth => ?_⟩
      exact hboth.1 hsignone
  | password =>
    dsimp only [loginFlowStep]
    cases hr : mget st.failedLoginAttempts sid with
    | none =>
      exact flowInv_loginAuthenticate st sid input now sess _ db hinv hsid hsignone
    | some attempts =>
      dsimp only
      split
      · split
        · dsimp only
          apply flowInv_of_parts st _ sid hinv
          · intro sid2 _
            rfl
          · intro sid2 hne
            exact mget_mdel_ne _ hne
          · intro sid2 hne
            simp only [sessionStateOf]
            rw [findSession_update_ne (fun s => { s with state := SessionState.connected })
              (fun s => rfl) hne]
          · refine ⟨fun hany => ?_, fun hboth => ?_⟩
            · rcases hany with hs | hs
              · exact absurd hsignone hs
              · exact absurd (mget_mdel_self st.loginFlows sid) hs
            · exact hboth.1 hsignone
        · exact flowInv_loginAuthenticate
            { st with failedLoginAttempts := mdel st.failedLoginAttempts sid }
            sid input now sess _ db hinv hsid hsignone
      · exact flowInv_loginAuthenticate st sid input now sess _ db hinv hsid hsignone
  | confirmPassword =>
    dsimp only [loginFlowStep]
    exact hinv

theorem flowInv_authFlowCommand (st : MudState) (sid input : String) (now : Nat)
    (db : DbOracle) (hinv : flowInv st) :
    flowInv (authFlowCommand st sid input now db).state := by
  unfold authFlowCommand
  cases hfind : findSession st.sessions sid with
  | none => exact hinv
  | some sess =>
    dsimp only
    cases hsig : mget st.signupFlows sid with
    | some flow =>
      rw [if_neg (by simp)]
      exact flowInv_signupFlowStep st sid input sess flow db hinv hfind hsig
    | none =>
      cases hlog : mget st.loginFlows sid with
      | some flow =>
        rw [if_neg (by simp)]
        exact flowInv_trailingExpiredCheck _ sid
          (flowInv_loginFlowStep st sid input now sess flow db hinv hfind hlog hsig)
      | none =>
        by_cases hst : sess.state = SessionState.authenticating
        · rw [if_pos ⟨hst, rfl, rfl⟩]
          dsimp only
          apply flowInv_of_parts st _ sid hinv
          · intro sid2 _
            rfl
          · intro sid2 _
            rfl
          · intro sid2 hne
            simp only [sessionStateOf]
            rw [findSession_update_ne (fun s => { s with state := SessionState.connected })
              (fun s => rfl) hne]
          · refine ⟨fun hany => ?_, fun hboth => ?_⟩
            · rcases hany with hs | hs
              · exact absurd hsig hs
              · exact absurd hlog hs
            · exact hboth.1 hsig
        · rw [if_neg (by simp [hst])]
          exact flowInv_trailingExpiredCheck ⟨st, [], []⟩ sid hinv

theorem flowInv_quit (st : MudState) (sid : String) (hinv : flowInv st)
    (hq : mget st.signupFlows sid = none ∧ mget st.loginFlows sid = none) :
    flowInv (quitCommand st sid).state := by
  unfold quitCommand
  cases hfind : findSession st.sessions sid with
  | none => exact hinv
  | some sess =>
    dsimp only
    apply flowInv_of_parts st _ sid hinv
    · intro sid2 _
      rfl
    · intro sid2 _
      rfl
    · intro sid2 hne
      simp only [sessionStateOf]
      rw [findSession_update_ne (fun s => { s with state := SessionState.disconnected })
        (fun s => rfl) hne]
    · refine ⟨fun hany => ?_, fun hboth => hboth.1 hq.1⟩
      rcases hany with h2 | h2
      · exact absurd hq.1 h2
      · exact absurd hq.2 h2

theorem flowInv_socketEnd (st : MudState) (sid : String) (hinv : flowInv st)
    (hq : mget st.signupFlows sid = none ∧ mget st.loginFlows sid = none) :
    flowInv (socketEndEvent st sid) := by
  apply flowInv_of_parts st _ sid hinv
  · intro sid2 _
    rfl
  · intro sid2 _
    rfl
  · intro sid2 hne
    simp only [sessionStateOf, socketEndEvent]
    rw [findSession_update_ne (fun s => { s with state := SessionState.disconnected })
      (fun s => rfl) hne]
  · refine ⟨fun hany => ?_, fun hboth => hboth.1 hq.1⟩
    rcases hany with h2 | h2
    · exact absurd hq.1 h2
    · exact absurd hq.2 h2

theorem flowInv_cleanup (st : MudState) (sid : String) (hinv : flowInv st)
    (hq : mget st.signupFlows sid = none ∧ mget st.loginFlows sid = none) :
    flowInv (cleanupEvent st sid).state := by
  unfold cleanupEvent
  cases hfind : findSession st.sessions sid with
  | none => exact hinv
  | some sess =>
    dsimp only
    apply flowInv_of_parts st _ sid hinv
    · intro sid2 _
      rfl
    · intro sid2 _
      rfl
    · intro sid2 hne
      simp only [sessionStateOf]
      rw [findSession_removeSession_ne hne]
    · refine ⟨fun hany => ?_, fun hboth => hboth.1 hq.1⟩
      rcases hany with h2 | h2
      · exact absurd hq.1 h2
      · exact absurd hq.2 h2

theorem flowInv_connect (st : MudState) (sid : String) (hinv : flowInv st)
    (hs : mget st.signupFlows sid = none) (hl : mget st.loginFlows sid = none) :
    flowInv (connectEvent st sid) := by
  apply flowInv_of_parts st _ sid hinv
  · intro sid2 _
    rfl
  · intro sid2 _
    rfl
  · intro sid2 hne
    simp only [sessionStateOf, connectEvent]
    rw [findSession_addSession_ne hne.symm]
  · refine ⟨fun hany => ?_, fun hboth => hboth.1 hs⟩
    rcases hany with h2 | h2
    · exact absurd hs h2
    · exact absurd hl h2

theorem moveCommand_state (w : World) (st : MudState) (sid : String)
    (args : List String) :
    (moveCommand w st sid args).state = st ∨
    ∃ rid2 sess, findSession st.sessions sid = some sess ∧
      sess.state = SessionState.authenticated ∧
      (moveCommand w st sid args).state =
        { st with
            sessions := updateSession st.sessions sid
              (fun s => { s with roomId := some rid2 }) } := by
  unfold moveCommand
  cases hfind : findSession st.sessions sid with
  | none => exact Or.inl rfl
  | some sess =>
    dsimp only
    split
    · exact Or.inl rfl
    · rename_i hst
      cases hroom : sess.roomId with
      | none => exact Or.inl rfl
      | some rid =>
        dsimp only
        split
        · exact Or.inl rfl
        · cases hhd : args.head? with
          | none => exact Or.inl rfl
          | some dirArg =>
            dsimp only
            cases hexit : getExitByDirection w rid (normalizeDirection dirArg) with
            | none => exact Or.inl rfl
            | some exitRow =>
              dsimp only
              cases hdest : findRoomById w exitRow.toRoomId with
              | none => exact Or.inl rfl
              | some destRoom =>
                dsimp only
                refine Or.inr ⟨exitRow.toRoomId, sess, rfl, not_not.mp hst, ?_⟩
                rw [lookCommand_state]

theorem flowInv_step (w : World) (st : MudState) (e : Ev) (hinv : flowInv st)
    (hg : evGuard st e) (hq : flowQuiet st e) : flowInv (applyEv w st e) := by
  cases e with
  | connect sid => exact flowInv_connect st sid hinv hg.2.1 hg.2.2.1
  | signup sid => exact flowInv_signupCommand st sid hinv hg
  | login sid now => exact flowInv_loginCommand st sid now hinv hg
  | authLine sid input now db => exact flowInv_authFlowCommand st sid input now db hinv
  | authTimeoutFires sid => exact hq.elim
  | quit sid => exact flowInv_quit st sid hinv hq
  | socketEnd sid => exact flowInv_socketEnd st sid hinv hq
  | cleanup sid => exact flowInv_cleanup st sid hinv hq
  | move sid args =>
    rcases moveCommand_state w st sid args with heq | ⟨rid2, sess, hfind2, hstate2, heq⟩
    · show flowInv (moveCommand w st sid args).state
      rw [heq]
      exact hinv
    · show flowInv (moveCommand w st sid args).state
      rw [heq]
      intro sid2
      refine ⟨fun hany => ?_, (hinv sid2).2⟩
      show (findSession (updateSession st.sessions sid
          (fun s => { s with roomId := some rid2 })) sid2).map Sess.state =
        some SessionState.authenticating
      rw [findSession_update_map_state (fun s => { s with roomId := some rid2 })
        (fun s => rfl) (fun s => rfl) sid2]
      exact (hinv sid2).1 hany

theorem flowInv_trace (w : World) (evs : List Ev) : ∀ (st : MudState),
    flowInv st → stepOk flowQuiet w st evs → flowInv (applyTrace w st evs) := by
  induction evs with
  | nil =>
    intro st hinv _
    exact hinv
  | cons e evs ih =>
    intro st hinv h
    exact ih _ (flowInv_step w st e hinv h.1 h.2.1) h.2.2

theorem flowInv_initial : flowInv initialMudState := by
  intro sid
  refine ⟨fun h2 => ?_, fun h2 => absurd rfl h2.1⟩
  rcases h2 with h2 | h2
  · exact absurd rfl h2
  · exact absurd rfl h2

/-- C4 (amended): for every session identifier, at most one pending
authentication flow (signup or login record) exists at any time, and a
pending flow exists only while that session's registered state is
`AUTHENTICATING` — in every run from the empty state in which no
authentication timeout fires and no session disconnects, ends its socket,
or is cleaned up while still holding a pending flow.  (The unamended
claim is refuted by `c4_flow_survives_timeout_counterexample`: the timeout
path returns the session to `CONNECTED` without destroying its flow, after
which a flow of the other kind can be started and coexist with the stale
one.) -/
theorem c4_single_flow_only_while_authenticating (w : World) (evs : List Ev)
    (h : stepOk flowQuiet w initialMudState evs) :
    ∀ sid,
      ¬(mget (applyTrace w initialMudState evs).signupFlows sid ≠ none ∧
          mget (applyTrace w initialMudState evs).loginFlows sid ≠ none) ∧
      ((mget (applyTrace w initialMudState evs).signupFlows sid ≠ none ∨
          mget (applyTrace w initialMudState evs).loginFlows sid ≠ none) →
        sessionStateOf (applyTrace w initialMudState evs) sid =
          some SessionState.authenticating) := by
  intro sid
  have h2 := flowInv_trace w evs initialMudState flowInv_initial h sid
  exact ⟨h2.2, h2.1⟩

/-- Witness for C4 at a concrete flow-quiet trace: connect then `signup`. -/
theorem c4_single_flow_only_while_authenticating_witness :
    stepOk flowQuiet ⟨[], [], []⟩ initialMudState
      [Ev.connect "A", Ev.signup "A"] ∧
    ¬(mget (applyTrace ⟨[], [], []⟩ initialMudState
          [Ev.connect "A", Ev.signup "A"]).signupFlows "A" ≠ none ∧
        mget (applyTrace ⟨[], [], []⟩ initialMudState
          [Ev.connect "A", Ev.signup "A"]).loginFlows "A" ≠ none) :=
  ⟨by decide,
    (c4_single_flow_only_while_authenticating ⟨[], [], []⟩
      [Ev.connect "A", Ev.signup "A"] (by decide) "A").1⟩

/-- C4 counterexample against the unamended claim: in the guard-respecting
run connect, `signup`, auth-timeout, `login`, the session is back in
`CONNECTED` after the timeout while its signup flow still exists, and after
the `login` both a signup flow and a login flow exist for the same session
id at once. -/
theorem c4_flow_survives_timeout_counterexample :
    traceOk ⟨[], [], []⟩ initialMudState
      [Ev.connect "A", Ev.signup "A", Ev.authTimeoutFires "A", Ev.login "A" 0] ∧
    sessionStateOf (applyTrace ⟨[], [], []⟩ initialMudState
      [Ev.connect "A", Ev.signup "A", Ev.authTimeoutFires "A"]) "A" =
      some SessionState.connected ∧
    (mget (applyTrace ⟨[], [], []⟩ initialMudState
      [Ev.connect "A", Ev.signup "A", Ev.authTimeoutFires "A"]).signupFlows "A").isSome = true ∧
    (mget (applyTrace ⟨[], [], []⟩ initialMudState
      [Ev.connect "A", Ev.signup "A", Ev.authTimeoutFires "A", Ev.login "A" 0]).signupFlows "A").isSome = true ∧
    (mget (applyTrace ⟨[], [], []⟩ initialMudState
      [Ev.connect "A", Ev.signup "A", Ev.authTimeoutFires "A", Ev.login "A" 0]).loginFlows "A").isSome = true := by
  decide

